import Mathlib

/-!
Shallow embedding of the KibakoEngine 2D sprite/geometry batcher
(`src/Kibako2DEngine/src/Renderer/SpriteBatch2D.cpp` and its header
`SpriteBatch2D.h`), covering the frame pipeline: command collection
(`Begin` / `Push` / `PushGeometryRaw` / `PushGeometryView`), the `End`
compositor (filter, unify, stable sort, vertex/index building, draw-range
merging), and the GPU buffer capacity manager
(`EnsureVertexCapacity` / `EnsureIndexCapacity`).

Modelling conventions:
* `float` values carried by commands (rect coordinates, colors, rotation)
  are modelled as exact rationals (`Rat`); the comparisons the code performs
  on them (`<`, `==`, `> 0`) are exact on floats that are not NaN, so the
  rational model is faithful for the ordering/filtering logic.  The float
  literal `0.0001f` of the rotation test is modelled as `mkRat 1 10000`.
* Trigonometry (`std::cos` / `std::sin`) is an external math-library call;
  the model is parameterised by arbitrary functions `cosF sinF : Rat → Rat`.
* Pointers are modelled by identity: a `Texture2D*` is `Option Texture`
  where `Texture.id` stands for the object address and `Texture.srv` for the
  value returned by `GetSRV()` (`none` = null pointer).  Pointer equality is
  equality of `id`s; the comparator's SRV comparison compares the SRV
  pointer values, with the null pointer reading as address 0.
* `std::uint32_t` arithmetic is `Nat` arithmetic reduced `% 2^32` at every
  cast/overflowing operation; `size_t` quantities (list sizes, cursors) are
  plain `Nat` (a `size_t` overflow needs more than 2^64 bytes of live data
  and is not reachable).
* Device-side allocations (`CreateBuffer`) and buffer maps (`Map`) can fail;
  they are modelled by oracle parameters (`vAlloc iAlloc : Nat → Bool`,
  `mapVOk mapIOk : Bool`).
* Mutation is modelled by explicit state passing on a `Batch` record that
  mirrors the `SpriteBatch2D` members the pipeline reads and writes.
-/

namespace KibakoSB

/-- Number of values of `std::uint32_t`; uint32 casts/overflow reduce mod this. -/
def u32Size : Nat := 2 ^ 32

/-- Model of a `Texture2D` object: `id` is the object identity (its address),
`srv` the shader-resource-view pointer returned by `GetSRV()` (`none` = null). -/
structure Texture where
  id : Nat
  srv : Option Nat
deriving DecidableEq, Repr, Inhabited

/-- Model of `RectF` (x, y, w, h), float fields as exact rationals. -/
structure RectF where
  x : Rat
  y : Rat
  w : Rat
  h : Rat
deriving DecidableEq, Repr, Inhabited

/-- Model of `Color4` (r, g, b, a). -/
structure Color4 where
  r : Rat
  g : Rat
  b : Rat
  a : Rat
deriving DecidableEq, Repr, Inhabited

/-- Model of `DirectX::XMFLOAT2`, used for the view-path translation. -/
structure Vec2 where
  x : Rat
  y : Rat
deriving DecidableEq, Repr, Inhabited

/-- Model of `SpriteBatch2D::Vertex`: position (3), uv (2), color (4). -/
structure Vertex where
  x : Rat
  y : Rat
  z : Rat
  u : Rat
  v : Rat
  color : Color4
deriving DecidableEq, Repr, Inhabited

/-- Model of `D3D11_RECT` (LONG left/top/right/bottom). -/
structure ScissorRect where
  left : Int
  top : Int
  right : Int
  bottom : Int
deriving DecidableEq, Repr, Inhabited

/-- Model of the sprite `DrawCommand` collected by `Push`. -/
structure DrawCommand where
  texture : Option Texture
  dst : RectF
  src : RectF
  color : Color4
  rotation : Rat
  layer : Int
deriving DecidableEq, Repr, Inhabited

/-- Model of `GeometryCommand`.  The fields through `clipRect` mirror the
command built by `PushGeometryRaw` in the .cpp; `hasTranslation` and
`translation` mirror the view-path fields declared in `SpriteBatch2D.h`
(`PushGeometryRaw` always leaves `hasTranslation := false`). -/
structure GeometryCommand where
  texture : Option Texture
  layer : Int
  hasClipRect : Bool
  clipRect : RectF
  vertices : List Vertex
  indices : List Nat
  hasTranslation : Bool
  translation : Vec2
deriving DecidableEq, Repr, Inhabited

/-- Model of `UnifiedCommand`: cached texture pointer, layer, kind tag, and
index into the sprite or geometry command list. -/
structure UnifiedCommand where
  texture : Option Texture
  layer : Int
  isSprite : Bool
  index : Nat
deriving DecidableEq, Repr, Inhabited

/-- Model of `DrawRange`: texture pointer, layer, uint32 `firstIndex` and
`indexCount`, scissor flag and rect. -/
structure DrawRange where
  texture : Option Texture
  layer : Int
  firstIndex : Nat
  indexCount : Nat
  useScissor : Bool
  scissorRect : ScissorRect
deriving DecidableEq, Repr, Inhabited

/-- Model of the `SpriteBatch2D` members the frame pipeline reads and writes.
`hasVertexBuffer` / `hasIndexBuffer` model non-nullness of the two GPU
buffers; `defaultWhite` is `some w` exactly when `m_defaultWhite.IsValid()`. -/
structure Batch where
  commands : List DrawCommand
  geometryCommands : List GeometryCommand
  unifiedCommands : List UnifiedCommand
  drawRanges : List DrawRange
  vertexScratch : List Vertex
  indexScratch : List Nat
  vertexCapacity : Nat
  indexCapacity : Nat
  hasVertexBuffer : Bool
  hasIndexBuffer : Bool
  isDrawing : Bool
  statsDrawCalls : Nat
  statsSpritesSubmitted : Nat
  statsSpritesCulled : Nat
  defaultWhite : Option Texture
deriving DecidableEq, Repr, Inhabited

/-! ## Command collector (`Begin`, `Push`, `PushGeometryRaw`, `PushGeometryView`) -/

/-- Model of `SpriteBatch2D::ClearFrameData`. -/
def clearFrameData (b : Batch) : Batch :=
  { b with indexScratch := [], vertexScratch := [], commands := [],
           geometryCommands := [], unifiedCommands := [], drawRanges := [] }

/-- Model of `SpriteBatch2D::Begin`: zeroes the stats, raises `m_isDrawing`,
and clears the sprite and geometry command lists (only those two). -/
def begin (b : Batch) : Batch :=
  { b with statsDrawCalls := 0, statsSpritesSubmitted := 0, statsSpritesCulled := 0,
           isDrawing := true, commands := [], geometryCommands := [] }

/-- Model of `SpriteBatch2D::Push` (sprite submission; the texture parameter is
a C++ reference, hence never null). -/
def push (b : Batch) (texture : Texture) (dst src : RectF) (color : Color4)
    (rotation : Rat) (layer : Int) : Batch :=
  if b.isDrawing = false then b
  else
    { b with
      commands := b.commands ++
        [{ texture := some texture, dst := dst, src := src, color := color,
           rotation := rotation, layer := layer }],
      statsSpritesSubmitted := (b.statsSpritesSubmitted + 1) % u32Size }

/-- Model of `SpriteBatch2D::PushGeometryRaw`: validates non-empty buffers,
substitutes the default white texture for a null texture (itself null when
`m_defaultWhite` is invalid), computes `hasClipRect` from a positive-area
clip rect, and appends an owned copy of the data. -/
def pushGeometryRaw (b : Batch) (texture : Option Texture) (vertices : List Vertex)
    (indices : List Nat) (layer : Int) (clipRect : RectF) : Batch :=
  if b.isDrawing = false then b
  else if vertices.isEmpty || indices.isEmpty then b
  else
    { b with
      geometryCommands := b.geometryCommands ++
        [{ texture := match texture with | some t => some t | none => b.defaultWhite,
           layer := layer,
           hasClipRect := decide (clipRect.w > 0 ∧ clipRect.h > 0),
           clipRect := clipRect,
           vertices := vertices,
           indices := indices,
           hasTranslation := false,
           translation := ⟨0, 0⟩ }] }

/-- Modelled from the spec: `SpriteBatch2D::PushGeometryView` is declared in
`SpriteBatch2D.h` but its implementation is not under `src/`.  Per spec §4.1
it performs the same validation as `PushGeometryRaw` but stores references to
caller-owned storage together with the translation, to be applied at emission
time.  In the pure model "storing a reference" stores the same vertex/index
lists; the translation is recorded on the command. -/
def pushGeometryView (b : Batch) (texture : Option Texture) (vertices : List Vertex)
    (indices : List Nat) (layer : Int) (clipRect : RectF) (translation : Vec2) : Batch :=
  if b.isDrawing = false then b
  else if vertices.isEmpty || indices.isEmpty then b
  else
    { b with
      geometryCommands := b.geometryCommands ++
        [{ texture := match texture with | some t => some t | none => b.defaultWhite,
           layer := layer,
           hasClipRect := decide (clipRect.w > 0 ∧ clipRect.h > 0),
           clipRect := clipRect,
           vertices := vertices,
           indices := indices,
           hasTranslation := true,
           translation := translation }] }

/-! ## Filter step of `End` -/

/-- Predicate of the `remove_if` over sprite commands in `End`:
`cmd.texture == nullptr || cmd.texture->GetSRV() == nullptr`. -/
def spriteDropped (c : DrawCommand) : Bool :=
  match c.texture with
  | none => true
  | some t => t.srv.isNone

/-- Predicate of the `remove_if` over geometry commands in `End`:
empty vertices, empty indices, null texture or null SRV. -/
def geomDropped (g : GeometryCommand) : Bool :=
  g.vertices.isEmpty || g.indices.isEmpty ||
    (match g.texture with
     | none => true
     | some t => t.srv.isNone)

/-! ## Unify and sort -/

/-- The first merge loop of `End`: sprite commands entered in submission order
with their list index. -/
def unifySprites : Nat → List DrawCommand → List UnifiedCommand
  | _, [] => []
  | i, c :: cs => ⟨c.texture, c.layer, true, i⟩ :: unifySprites (i + 1) cs

/-- The second merge loop of `End`: geometry commands entered in submission
order with their list index. -/
def unifyGeoms : Nat → List GeometryCommand → List UnifiedCommand
  | _, [] => []
  | i, g :: gs => ⟨g.texture, g.layer, false, i⟩ :: unifyGeoms (i + 1) gs

/-- The unified command list as built in `End` before sorting: all sprites
(in order), then all geometry commands (in order). -/
def mkUnified (cmds : List DrawCommand) (geos : List GeometryCommand) : List UnifiedCommand :=
  unifySprites 0 cmds ++ unifyGeoms 0 geos

/-- Value of the SRV pointer `t->GetSRV()` for a possibly-null texture
pointer `t` (reading a pointer as a number, null = 0).  The unguarded C++
dereference is total here; the safety claim shows the `none` cases never
arise after filtering. -/
def srvPtr : Option Texture → Nat
  | none => 0
  | some t => t.srv.getD 0

/-- The comparator lambda of the `std::stable_sort` in `End`, over the
(already filtered) geometry command list `geos`. -/
def ucLess (geos : List GeometryCommand) (a b : UnifiedCommand) : Bool :=
  if a.layer ≠ b.layer then decide (a.layer < b.layer)
  else if srvPtr a.texture ≠ srvPtr b.texture then
    decide (srvPtr a.texture < srvPtr b.texture)
  else if a.isSprite ≠ b.isSprite then a.isSprite
  else if a.isSprite = false then
    let ga := geos.getD a.index default
    let gb := geos.getD b.index default
    if ga.hasClipRect ≠ gb.hasClipRect then !ga.hasClipRect
    else if ga.hasClipRect && decide (ga.clipRect.x ≠ gb.clipRect.x) then
      decide (ga.clipRect.x < gb.clipRect.x)
    else if ga.hasClipRect && decide (ga.clipRect.y ≠ gb.clipRect.y) then
      decide (ga.clipRect.y < gb.clipRect.y)
    else if ga.hasClipRect && decide (ga.clipRect.w ≠ gb.clipRect.w) then
      decide (ga.clipRect.w < gb.clipRect.w)
    else if ga.hasClipRect && decide (ga.clipRect.h ≠ gb.clipRect.h) then
      decide (ga.clipRect.h < gb.clipRect.h)
    else decide (a.index < b.index)
  else decide (a.index < b.index)

/-- Stable insertion used to model `std::stable_sort`: `x` is placed before
the first element `y` with `lt x y`, hence after every earlier element it
does not strictly precede. -/
def insertLt (lt : α → α → Bool) (x : α) : List α → List α
  | [] => [x]
  | y :: ys => if lt x y then x :: y :: ys else y :: insertLt lt x ys

/-- Model of `std::stable_sort` with strict comparator `lt`: stable insertion
sort (extensionally equal to any stable sort under a strict weak order). -/
def stableSort (lt : α → α → Bool) (l : List α) : List α :=
  l.foldl (fun acc x => insertLt lt x acc) []

/-- The sorted unified command list produced at `End`. -/
def sortedUnified (cmds : List DrawCommand) (geos : List GeometryCommand) :
    List UnifiedCommand :=
  stableSort (ucLess geos) (mkUnified cmds geos)

/-! ## Vertex/index builder and draw-range merger -/

/-- Sprite quad expansion from `End`: four corners of the destination rect
(rotated about the rect center when `|rotation|` exceeds the epsilon), UV
corners from the source rect, command color, z = 0. -/
def spriteVertices (cosF sinF : Rat → Rat) (cmd : DrawCommand) : List Vertex :=
  let left := cmd.dst.x
  let top := cmd.dst.y
  let right := cmd.dst.x + cmd.dst.w
  let bottom := cmd.dst.y + cmd.dst.h
  let rotP : Rat × Rat → Rat × Rat := fun p =>
    if |cmd.rotation| > mkRat 1 10000 then
      let cx := cmd.dst.x + cmd.dst.w * mkRat 1 2
      let cy := cmd.dst.y + cmd.dst.h * mkRat 1 2
      let cs := cosF cmd.rotation
      let sn := sinF cmd.rotation
      (cx + (p.1 - cx) * cs - (p.2 - cy) * sn, cy + (p.1 - cx) * sn + (p.2 - cy) * cs)
    else p
  let u0 := cmd.src.x
  let v0 := cmd.src.y
  let u1 := cmd.src.x + cmd.src.w
  let v1 := cmd.src.y + cmd.src.h
  let c0 := rotP (left, top)
  let c1 := rotP (right, top)
  let c2 := rotP (right, bottom)
  let c3 := rotP (left, bottom)
  [⟨c0.1, c0.2, 0, u0, v0, cmd.color⟩, ⟨c1.1, c1.2, 0, u1, v0, cmd.color⟩,
   ⟨c2.1, c2.2, 0, u1, v1, cmd.color⟩, ⟨c3.1, c3.2, 0, u0, v1, cmd.color⟩]

/-- Sprite index emission from `End`: two triangles 0-1-2 / 0-2-3 over the
uint32 cast of the current vertex base. -/
def spriteIndices (vBase : Nat) : List Nat :=
  let base := vBase % u32Size
  [base, (base + 1) % u32Size, (base + 2) % u32Size,
   base, (base + 2) % u32Size, (base + 3) % u32Size]

/-- Translation of a vertex position by a `Vec2` (the view-path emission). -/
def translateVertex (t : Vec2) (v : Vertex) : Vertex :=
  { v with x := v.x + t.x, y := v.y + t.y }

/-- Vertices a geometry command contributes to the shared vertex scratch.
For `hasTranslation = false` (every command the raw path can produce) this is
the verbatim `memcpy` of `End` in the .cpp.  The `hasTranslation = true`
branch is modelled from the spec: the view-path builder (absent from `src/`)
applies the command's translation at emission time (spec §4.1, §4.3). -/
def geomEmittedVertices (g : GeometryCommand) : List Vertex :=
  if g.hasTranslation then g.vertices.map (translateVertex g.translation)
  else g.vertices

/-- Scissor state derived from a geometry command in `End`: the clip rect
bounds cast to `LONG` (C cast of a float truncates toward zero). -/
def truncLong (q : Rat) : Int :=
  Int.tdiv q.num (q.den : Int)

/-- Scissor flag and rect for a geometry command (`End`, range-merge step). -/
def scissorOfGeom (g : GeometryCommand) : Bool × ScissorRect :=
  if g.hasClipRect then
    (true, ⟨truncLong g.clipRect.x, truncLong g.clipRect.y,
            truncLong (g.clipRect.x + g.clipRect.w),
            truncLong (g.clipRect.y + g.clipRect.h)⟩)
  else (false, ⟨0, 0, 0, 0⟩)

/-- State threaded through the build/merge loop of `End`: vertex and index
cursors, the scratch buffers filled so far, and the draw-range accumulator
(`haveRange` / `currentRange` / completed `ranges`). -/
structure MergeAcc where
  vBase : Nat
  iBase : Nat
  vScratch : List Vertex
  iScratch : List Nat
  haveRange : Bool
  currentRange : DrawRange
  ranges : List DrawRange
deriving DecidableEq, Repr, Inhabited

/-- Loop body of the build/merge loop of `End` for one unified command:
emit vertices/indices at the cursors, then open, extend or flush the
current draw range. -/
def emitCommand (cosF sinF : Rat → Rat) (cmds : List DrawCommand)
    (geos : List GeometryCommand) (acc : MergeAcc) (u : UnifiedCommand) : MergeAcc :=
  let cmdFirstIndex := acc.iBase % u32Size
  let newVerts : List Vertex :=
    if u.isSprite then spriteVertices cosF sinF (cmds.getD u.index default)
    else geomEmittedVertices (geos.getD u.index default)
  let newIdxs : List Nat :=
    if u.isSprite then spriteIndices acc.vBase
    else (geos.getD u.index default).indices.map
      (fun k => (acc.vBase % u32Size + k) % u32Size)
  let iBase' := acc.iBase + newIdxs.length
  let cmdIndexCount := (iBase' - cmdFirstIndex) % u32Size
  let sc : Bool × ScissorRect :=
    if u.isSprite then (false, ⟨0, 0, 0, 0⟩)
    else scissorOfGeom (geos.getD u.index default)
  let acc' := { acc with
    vBase := acc.vBase + newVerts.length, iBase := iBase',
    vScratch := acc.vScratch ++ newVerts, iScratch := acc.iScratch ++ newIdxs }
  if acc.haveRange = false then
    { acc' with
      haveRange := true,
      currentRange := ⟨u.texture, u.layer, cmdFirstIndex, cmdIndexCount, sc.1, sc.2⟩ }
  else if u.texture.map Texture.id = acc.currentRange.texture.map Texture.id ∧
          u.layer = acc.currentRange.layer ∧
          sc.1 = acc.currentRange.useScissor ∧
          (sc.1 = false ∨ sc.2 = acc.currentRange.scissorRect) then
    { acc' with currentRange := { acc.currentRange with
        indexCount := (acc.currentRange.indexCount + cmdIndexCount) % u32Size } }
  else
    { acc' with
      ranges := acc.ranges ++ [acc.currentRange],
      currentRange := ⟨u.texture, u.layer, cmdFirstIndex, cmdIndexCount, sc.1, sc.2⟩ }

/-- Initial state of the build/merge loop (`currentRange{}` value-initialised). -/
def initAcc : MergeAcc :=
  { vBase := 0, iBase := 0, vScratch := [], iScratch := [],
    haveRange := false, currentRange := ⟨none, 0, 0, 0, false, ⟨0, 0, 0, 0⟩⟩,
    ranges := [] }

/-- The full build/merge loop of `End` over the sorted unified list. -/
def buildAll (cosF sinF : Rat → Rat) (cmds : List DrawCommand)
    (geos : List GeometryCommand) (us : List UnifiedCommand) : MergeAcc :=
  us.foldl (emitCommand cosF sinF cmds geos) initAcc

/-- Draw-range list at the end of the loop: the flushed ranges plus the
pending `currentRange` when one is open. -/
def rangesClosed (acc : MergeAcc) : List DrawRange :=
  acc.ranges ++ (if acc.haveRange then [acc.currentRange] else [])

/-- Per-unified-command emitted vertex count as summed by `End`
(4 per sprite, `vertices.size()` per geometry command). -/
def emittedVertexCount (geos : List GeometryCommand) (u : UnifiedCommand) : Nat :=
  if u.isSprite then 4 else (geos.getD u.index default).vertices.length

/-- Per-unified-command emitted index count as summed by `End`
(6 per sprite, `indices.size()` per geometry command). -/
def emittedIndexCount (geos : List GeometryCommand) (u : UnifiedCommand) : Nat :=
  if u.isSprite then 6 else (geos.getD u.index default).indices.length

/-- `totalVertices` as precomputed by `End`. -/
def totalVerts (geos : List GeometryCommand) (us : List UnifiedCommand) : Nat :=
  (us.map (emittedVertexCount geos)).sum

/-- `totalIndices` as precomputed by `End`. -/
def totalIdxs (geos : List GeometryCommand) (us : List UnifiedCommand) : Nat :=
  (us.map (emittedIndexCount geos)).sum

/-- Vertices one unified command contributes, in unified order (the vertex
content does not depend on the cursors). -/
def emitVertsOf (cosF sinF : Rat → Rat) (cmds : List DrawCommand)
    (geos : List GeometryCommand) (u : UnifiedCommand) : List Vertex :=
  if u.isSprite then spriteVertices cosF sinF (cmds.getD u.index default)
  else geomEmittedVertices (geos.getD u.index default)

/-- Concatenation of per-command emissions in order. -/
def concatEmit (f : α → List β) : List α → List β
  | [] => []
  | a :: as => f a ++ concatEmit f as

/-! ## Capacity manager -/

/-- Structural core of the doubling loop, on explicit fuel.  Each iteration
of the C++ loop increases the capacity by at least 1 (when it is positive),
so `n - cap` iterations always suffice; with that fuel this equals the loop. -/
def growGo : Nat → Nat → Nat → Nat
  | 0, cap, _ => cap
  | f + 1, cap, n => if cap < n then growGo f (cap * 2) n else cap

/-- The doubling loop `while (newCapacity < n) newCapacity *= 2` of the
capacity manager (callers always start it from a positive capacity). -/
def growCapacity (cap n : Nat) : Nat :=
  growGo (n - cap) cap n

/-- Model of `SpriteBatch2D::EnsureVertexCapacity`: no-op when the request
fits and a buffer exists; otherwise grow by doubling from baseline 1024 and
reallocate, keeping the old buffer and capacity when the device allocation
(oracle `f`) fails. -/
def ensureVertexCapacity (f : Nat → Bool) (b : Batch) (vertexCount : Nat) : Bool × Batch :=
  if vertexCount ≤ b.vertexCapacity ∧ b.hasVertexBuffer then (true, b)
  else
    let newCap := growCapacity (if b.vertexCapacity = 0 then 1024 else b.vertexCapacity) vertexCount
    if f newCap then (true, { b with vertexCapacity := newCap, hasVertexBuffer := true })
    else (false, b)

/-- Model of `SpriteBatch2D::EnsureIndexCapacity` (baseline 2048). -/
def ensureIndexCapacity (f : Nat → Bool) (b : Batch) (indexCount : Nat) : Bool × Batch :=
  if indexCount ≤ b.indexCapacity ∧ b.hasIndexBuffer then (true, b)
  else
    let newCap := growCapacity (if b.indexCapacity = 0 then 2048 else b.indexCapacity) indexCount
    if f newCap then (true, { b with indexCapacity := newCap, hasIndexBuffer := true })
    else (false, b)

/-! ## `End` -/

/-- Model of `SpriteBatch2D::End`.  `vAlloc` / `iAlloc` are the device
allocation oracles consulted by the capacity manager; `mapVOk` / `mapIOk`
model success of the vertex/index buffer `Map` calls.  Mirrors the control
flow of the source: filter, early-out when nothing survives, unify + stable
sort, total sizing, capacity ensure (early-out on failure), scratch build and
range merge, upload (early-out on map failure), then one draw call per range. -/
def endFrame (cosF sinF : Rat → Rat) (vAlloc iAlloc : Nat → Bool)
    (mapVOk mapIOk : Bool) (b : Batch) : Batch :=
  let b1 : Batch := { b with isDrawing := false }
  let cmds := b.commands.filter (fun c => !spriteDropped c)
  let geos := b.geometryCommands.filter (fun g => !geomDropped g)
  let b2 : Batch := { b1 with commands := cmds, geometryCommands := geos }
  if cmds.isEmpty && geos.isEmpty then b2
  else
    let us := sortedUnified cmds geos
    let b3 : Batch := { b2 with unifiedCommands := us }
    let tv := totalVerts geos us
    let ti := totalIdxs geos us
    if tv == 0 || ti == 0 then b3
    else
      match ensureVertexCapacity vAlloc b3 tv with
      | (false, b4) => b4
      | (true, b4) =>
        match ensureIndexCapacity iAlloc b4 ti with
        | (false, b5) => b5
        | (true, b5) =>
          let acc := buildAll cosF sinF cmds geos us
          let b6 : Batch := { b5 with
            vertexScratch := acc.vScratch,
            indexScratch := acc.iScratch,
            drawRanges := rangesClosed acc }
          if mapVOk = false then b6
          else if mapIOk = false then b6
          else { b6 with statsDrawCalls :=
                  (b6.statsDrawCalls + (rangesClosed acc).length) % u32Size }

/-! ## Concrete inputs for the spec's scenarios -/

/-- A batch with no pending frame data, as after `Init` (capacities 1024/2048
established by `Init`'s warm-up calls, both GPU buffers live, white fallback
texture created with SRV pointer 1). -/
def initBatch : Batch :=
  { commands := [], geometryCommands := [], unifiedCommands := [], drawRanges := [],
    vertexScratch := [], indexScratch := [], vertexCapacity := 1024,
    indexCapacity := 2048, hasVertexBuffer := true, hasIndexBuffer := true,
    isDrawing := false, statsDrawCalls := 0, statsSpritesSubmitted := 0,
    statsSpritesCulled := 0, defaultWhite := some ⟨100, some 1⟩ }

/-- The unit rect used by the scenario sprites. -/
def unitRect : RectF := ⟨0, 0, 1, 1⟩

/-- Opaque white. -/
def whiteColor : Color4 := ⟨1, 1, 1, 1⟩

/-- Scenario A of the spec: `Begin(); Push(A, layer 0) ×3; Push(B, layer 0) ×2;
End()` with every device operation succeeding. -/
def scenarioA (b : Batch) (texA texB : Texture) : Batch :=
  let b1 := begin b
  let b2 := push b1 texA unitRect unitRect whiteColor 0 0
  let b3 := push b2 texA unitRect unitRect whiteColor 0 0
  let b4 := push b3 texA unitRect unitRect whiteColor 0 0
  let b5 := push b4 texB unitRect unitRect whiteColor 0 0
  let b6 := push b5 texB unitRect unitRect whiteColor 0 0
  endFrame (fun _ => 0) (fun _ => 0) (fun _ => true) (fun _ => true) true true b6

/-- The four vertices of scenario B's geometry command. -/
def quadVerts : List Vertex :=
  [⟨0, 0, 0, 0, 0, whiteColor⟩, ⟨1, 0, 0, 0, 0, whiteColor⟩,
   ⟨1, 1, 0, 0, 0, whiteColor⟩, ⟨0, 1, 0, 0, 0, whiteColor⟩]

/-- The six indices of scenario B's geometry command. -/
def quadIdxs : List Nat := [0, 1, 2, 0, 2, 3]

/-- Scenario B of the spec: `Begin(); PushGeometryRaw(null texture, 4 verts,
6 indices, layer 1, clipRect={0,0,0,0}); End()` with every device operation
succeeding. -/
def scenarioB (b : Batch) : Batch :=
  endFrame (fun _ => 0) (fun _ => 0) (fun _ => true) (fun _ => true) true true
    (pushGeometryRaw (begin b) none quadVerts quadIdxs 1 ⟨0, 0, 0, 0⟩)

/-! ## Specification-side predicates used by the theorems -/

/-- Draw ranges are contiguous from index `n`: each range starts exactly where
the previous one ended. -/
def contiguousFromB (n : Nat) : List DrawRange → Bool
  | [] => true
  | r :: rs => (r.firstIndex == n) && contiguousFromB (r.firstIndex + r.indexCount) rs

/-- Total index count of a draw-range list. -/
def sumCounts (l : List DrawRange) : Nat :=
  (l.map (·.indexCount)).sum

/-- A texture pointer that is non-null and whose `GetSRV()` is non-null. -/
def validTexPtr (t : Option Texture) : Prop :=
  ∃ tex s, t = some tex ∧ tex.srv = some s

/-- Lexicographic key for the clip-rect tie-break (x, then y, then w, then h). -/
abbrev ClipKey := Rat ×ₗ (Rat ×ₗ (Rat ×ₗ Rat))

/-- Total sort key realised by the `End` comparator: layer, then SRV pointer,
then kind (sprites first), then optional clip rect (absent first, then
lexicographic), then original submission index. -/
abbrev UKey := Int ×ₗ (Nat ×ₗ (Nat ×ₗ ((WithBot ClipKey) ×ₗ Nat)))

/-- Kind component of the sort key: sprites (0) before geometry (1). -/
def kindRank (isSprite : Bool) : Nat :=
  if isSprite then 0 else 1

/-- Clip component of the sort key: `⊥` for sprites and for geometry without
a clip rect, the rect's lexicographic key otherwise. -/
def clipComp (geos : List GeometryCommand) (u : UnifiedCommand) : WithBot ClipKey :=
  if u.isSprite then ⊥
  else
    let g := geos.getD u.index default
    if g.hasClipRect then
      ((toLex (g.clipRect.x, toLex (g.clipRect.y, toLex (g.clipRect.w, g.clipRect.h)))) :
        ClipKey)
    else ⊥

/-- The sort key of a unified command under the `End` comparator. -/
def ucKey (geos : List GeometryCommand) (u : UnifiedCommand) : UKey :=
  toLex (u.layer, toLex (srvPtr u.texture,
    toLex (kindRank u.isSprite, toLex (clipComp geos u, u.index))))

/-- Equality of the `Batch` fields that the capacity manager does not touch. -/
def sameFrameFields (a b : Batch) : Prop :=
  a.commands = b.commands ∧ a.geometryCommands = b.geometryCommands ∧
  a.unifiedCommands = b.unifiedCommands ∧ a.drawRanges = b.drawRanges ∧
  a.vertexScratch = b.vertexScratch ∧ a.indexScratch = b.indexScratch ∧
  a.isDrawing = b.isDrawing ∧ a.statsDrawCalls = b.statsDrawCalls ∧
  a.defaultWhite = b.defaultWhite

/-! ## Lemmas: capacity manager -/

theorem growGo_le (f cap n : Nat) : cap ≤ growGo f cap n := by
  induction f generalizing cap with
  | zero => simp [growGo]
  | succ f ih =>
    simp only [growGo]
    split
    · exact le_trans (by omega) (ih (cap * 2))
    · exact le_refl _

theorem growGo_ge (f cap n : Nat) (hc : 1 ≤ cap) (hf : n - cap ≤ f) :
    n ≤ growGo f cap n := by
  induction f generalizing cap with
  | zero => simp [growGo]; omega
  | succ f ih =>
    simp only [growGo]
    split
    · exact ih (cap * 2) (by omega) (by omega)
    · omega

theorem growCapacity_le (cap n : Nat) : cap ≤ growCapacity cap n :=
  growGo_le _ _ _

theorem growCapacity_ge (cap n : Nat) (hc : 1 ≤ cap) : n ≤ growCapacity cap n :=
  growGo_ge _ _ _ hc (le_refl _)

theorem ensureVertexCapacity_mono (f : Nat → Bool) (b : Batch) (n : Nat) :
    b.vertexCapacity ≤ (ensureVertexCapacity f b n).2.vertexCapacity := by
  rw [ensureVertexCapacity]
  by_cases hfit : n ≤ b.vertexCapacity ∧ b.hasVertexBuffer = true
  · rw [if_pos hfit]
  · rw [if_neg hfit]
    dsimp only
    by_cases hf :
        f (growCapacity (if b.vertexCapacity = 0 then 1024 else b.vertexCapacity) n) = true
    · rw [if_pos hf]
      exact le_trans (by split <;> omega) (growCapacity_le _ _)
    · rw [if_neg hf]

theorem ensureIndexCapacity_mono (f : Nat → Bool) (b : Batch) (n : Nat) :
    b.indexCapacity ≤ (ensureIndexCapacity f b n).2.indexCapacity := by
  rw [ensureIndexCapacity]
  by_cases hfit : n ≤ b.indexCapacity ∧ b.hasIndexBuffer = true
  · rw [if_pos hfit]
  · rw [if_neg hfit]
    dsimp only
    by_cases hf :
        f (growCapacity (if b.indexCapacity = 0 then 2048 else b.indexCapacity) n) = true
    · rw [if_pos hf]
      exact le_trans (by split <;> omega) (growCapacity_le _ _)
    · rw [if_neg hf]

theorem ensureVertexCapacity_fits (f : Nat → Bool) (b : Batch) (n : Nat)
    (h : n ≤ b.vertexCapacity ∧ b.hasVertexBuffer = true) :
    ensureVertexCapacity f b n = (true, b) := by
  unfold ensureVertexCapacity
  rw [if_pos]
  exact ⟨h.1, by simp [h.2]⟩

theorem ensureIndexCapacity_fits (f : Nat → Bool) (b : Batch) (n : Nat)
    (h : n ≤ b.indexCapacity ∧ b.hasIndexBuffer = true) :
    ensureIndexCapacity f b n = (true, b) := by
  unfold ensureIndexCapacity
  rw [if_pos]
  exact ⟨h.1, by simp [h.2]⟩

theorem ensureVertexCapacity_fail (f : Nat → Bool) (b : Batch) (n : Nat)
    (h : (ensureVertexCapacity f b n).1 = false) :
    (ensureVertexCapacity f b n).2 = b := by
  rw [ensureVertexCapacity] at h ⊢
  by_cases hfit : n ≤ b.vertexCapacity ∧ b.hasVertexBuffer = true
  · rw [if_pos hfit]
  · rw [if_neg hfit] at h ⊢
    dsimp only at h ⊢
    by_cases hf :
        f (growCapacity (if b.vertexCapacity = 0 then 1024 else b.vertexCapacity) n) = true
    · rw [if_pos hf] at h
      simp at h
    · rw [if_neg hf]

theorem ensureIndexCapacity_fail (f : Nat → Bool) (b : Batch) (n : Nat)
    (h : (ensureIndexCapacity f b n).1 = false) :
    (ensureIndexCapacity f b n).2 = b := by
  rw [ensureIndexCapacity] at h ⊢
  by_cases hfit : n ≤ b.indexCapacity ∧ b.hasIndexBuffer = true
  · rw [if_pos hfit]
  · rw [if_neg hfit] at h ⊢
    dsimp only at h ⊢
    by_cases hf :
        f (growCapacity (if b.indexCapacity = 0 then 2048 else b.indexCapacity) n) = true
    · rw [if_pos hf] at h
      simp at h
    · rw [if_neg hf]

theorem ensureVertexCapacity_grow (f : Nat → Bool) (b : Batch) (n : Nat)
    (hmiss : ¬(n ≤ b.vertexCapacity ∧ b.hasVertexBuffer = true))
    (hok : (ensureVertexCapacity f b n).1 = true) :
    (ensureVertexCapacity f b n).2.vertexCapacity =
      growCapacity (if b.vertexCapacity = 0 then 1024 else b.vertexCapacity) n ∧
    n ≤ (ensureVertexCapacity f b n).2.vertexCapacity := by
  rw [ensureVertexCapacity] at hok ⊢
  rw [if_neg hmiss] at hok ⊢
  dsimp only at hok ⊢
  by_cases hf :
      f (growCapacity (if b.vertexCapacity = 0 then 1024 else b.vertexCapacity) n) = true
  · rw [if_pos hf]
    refine ⟨rfl, growCapacity_ge _ _ ?_⟩
    split <;> omega
  · rw [if_neg hf] at hok
    simp at hok

theorem ensureIndexCapacity_grow (f : Nat → Bool) (b : Batch) (n : Nat)
    (hmiss : ¬(n ≤ b.indexCapacity ∧ b.hasIndexBuffer = true))
    (hok : (ensureIndexCapacity f b n).1 = true) :
    (ensureIndexCapacity f b n).2.indexCapacity =
      growCapacity (if b.indexCapacity = 0 then 2048 else b.indexCapacity) n ∧
    n ≤ (ensureIndexCapacity f b n).2.indexCapacity := by
  rw [ensureIndexCapacity] at hok ⊢
  rw [if_neg hmiss] at hok ⊢
  dsimp only at hok ⊢
  by_cases hf :
      f (growCapacity (if b.indexCapacity = 0 then 2048 else b.indexCapacity) n) = true
  · rw [if_pos hf]
    refine ⟨rfl, growCapacity_ge _ _ ?_⟩
    split <;> omega
  · rw [if_neg hf] at hok
    simp at hok

theorem sameFrameFields_refl (b : Batch) : sameFrameFields b b := by
  exact ⟨rfl, rfl, rfl, rfl, rfl, rfl, rfl, rfl, rfl⟩

theorem sameFrameFields_trans {a b c : Batch}
    (h₁ : sameFrameFields a b) (h₂ : sameFrameFields b c) : sameFrameFields a c := by
  obtain ⟨e1, e2, e3, e4, e5, e6, e7, e8, e9⟩ := h₁
  obtain ⟨f1, f2, f3, f4, f5, f6, f7, f8, f9⟩ := h₂
  exact ⟨e1.trans f1, e2.trans f2, e3.trans f3, e4.trans f4, e5.trans f5,
         e6.trans f6, e7.trans f7, e8.trans f8, e9.trans f9⟩

theorem ensureVertexCapacity_frame (f : Nat → Bool) (b : Batch) (n : Nat) :
    sameFrameFields (ensureVertexCapacity f b n).2 b ∧
    (ensureVertexCapacity f b n).2.indexCapacity = b.indexCapacity ∧
    (ensureVertexCapacity f b n).2.hasIndexBuffer = b.hasIndexBuffer := by
  rw [ensureVertexCapacity]
  by_cases hfit : n ≤ b.vertexCapacity ∧ b.hasVertexBuffer = true
  · rw [if_pos hfit]
    exact ⟨sameFrameFields_refl b, rfl, rfl⟩
  · rw [if_neg hfit]
    dsimp only
    by_cases hf :
        f (growCapacity (if b.vertexCapacity = 0 then 1024 else b.vertexCapacity) n) = true
    · rw [if_pos hf]
      exact ⟨⟨rfl, rfl, rfl, rfl, rfl, rfl, rfl, rfl, rfl⟩, rfl, rfl⟩
    · rw [if_neg hf]
      exact ⟨sameFrameFields_refl b, rfl, rfl⟩

theorem ensureIndexCapacity_frame (f : Nat → Bool) (b : Batch) (n : Nat) :
    sameFrameFields (ensureIndexCapacity f b n).2 b ∧
    (ensureIndexCapacity f b n).2.vertexCapacity = b.vertexCapacity ∧
    (ensureIndexCapacity f b n).2.hasVertexBuffer = b.hasVertexBuffer := by
  rw [ensureIndexCapacity]
  by_cases hfit : n ≤ b.indexCapacity ∧ b.hasIndexBuffer = true
  · rw [if_pos hfit]
    exact ⟨sameFrameFields_refl b, rfl, rfl⟩
  · rw [if_neg hfit]
    dsimp only
    by_cases hf :
        f (growCapacity (if b.indexCapacity = 0 then 2048 else b.indexCapacity) n) = true
    · rw [if_pos hf]
      exact ⟨⟨rfl, rfl, rfl, rfl, rfl, rfl, rfl, rfl, rfl⟩, rfl, rfl⟩
    · rw [if_neg hf]
      exact ⟨sameFrameFields_refl b, rfl, rfl⟩

theorem ensureVertexCapacity_allocTrue (f : Nat → Bool) (hf : ∀ m, f m = true)
    (b : Batch) (n : Nat) : (ensureVertexCapacity f b n).1 = true := by
  rw [ensureVertexCapacity]
  by_cases hfit : n ≤ b.vertexCapacity ∧ b.hasVertexBuffer = true
  · rw [if_pos hfit]
  · rw [if_neg hfit]
    dsimp only
    rw [if_pos (hf _)]

theorem ensureIndexCapacity_allocTrue (f : Nat → Bool) (hf : ∀ m, f m = true)
    (b : Batch) (n : Nat) : (ensureIndexCapacity f b n).1 = true := by
  rw [ensureIndexCapacity]
  by_cases hfit : n ≤ b.indexCapacity ∧ b.hasIndexBuffer = true
  · rw [if_pos hfit]
  · rw [if_neg hfit]
    dsimp only
    rw [if_pos (hf _)]

/-! ## Lemmas: stable sort -/

theorem insertLt_perm (lt : α → α → Bool) (x : α) (l : List α) :
    List.Perm (insertLt lt x l) (x :: l) := by
  induction l with
  | nil => exact List.Perm.refl _
  | cons y ys ih =>
    rw [insertLt]
    split
    · exact List.Perm.refl _
    · exact (ih.cons y).trans (List.Perm.swap x y ys)

theorem insertLt_mem {lt : α → α → Bool} {x a : α} {l : List α}
    (h : a ∈ insertLt lt x l) : a = x ∨ a ∈ l := by
  have := (insertLt_perm lt x l).mem_iff.mp h
  simpa using this

theorem stableSort_perm_aux (lt : α → α → Bool) :
    ∀ (l acc : List α), List.Perm (l.foldl (fun a x => insertLt lt x a) acc) (acc ++ l) := by
  intro l
  induction l with
  | nil => intro acc; simp
  | cons c cs ih =>
    intro acc
    have h1 := ih (insertLt lt c acc)
    have h2 : List.Perm (insertLt lt c acc ++ cs) ((c :: acc) ++ cs) :=
      (insertLt_perm lt c acc).append_right cs
    have h3 : List.Perm ((c :: acc) ++ cs) (acc ++ c :: cs) := by
      simpa using List.perm_middle.symm
    exact h1.trans (h2.trans h3)

theorem stableSort_perm (lt : α → α → Bool) (l : List α) :
    List.Perm (stableSort lt l) l := by
  simpa using stableSort_perm_aux lt l []

theorem insertLt_sorted_key {K : Type _} [LinearOrder K] (k : α → K) (x : α) (l : List α)
    (h : l.Pairwise (fun a b => k a ≤ k b)) :
    (insertLt (fun a b => decide (k a < k b)) x l).Pairwise (fun a b => k a ≤ k b) := by
  induction l with
  | nil => simp [insertLt]
  | cons y ys ih =>
    rw [insertLt]
    rw [List.pairwise_cons] at h
    split
    · rename_i hlt
      have hxy : k x < k y := of_decide_eq_true hlt
      refine List.Pairwise.cons ?_ (List.Pairwise.cons h.1 h.2)
      intro b hb
      rcases List.mem_cons.mp hb with hb | hb
      · exact hb ▸ le_of_lt hxy
      · exact le_trans (le_of_lt hxy) (h.1 b hb)
    · rename_i hnlt
      have hyx : k y ≤ k x := le_of_not_lt (fun hc => hnlt (decide_eq_true hc))
      refine List.Pairwise.cons ?_ (ih h.2)
      intro b hb
      rcases insertLt_mem hb with hb | hb
      · exact hb ▸ hyx
      · exact h.1 b hb

theorem stableSort_sorted_key {K : Type _} [LinearOrder K] (k : α → K) (l : List α) :
    (stableSort (fun a b => decide (k a < k b)) l).Pairwise (fun a b => k a ≤ k b) := by
  rw [stableSort]
  have : ∀ (l' acc : List α), acc.Pairwise (fun a b => k a ≤ k b) →
      (l'.foldl (fun a x => insertLt (fun a b => decide (k a < k b)) x a) acc).Pairwise
        (fun a b => k a ≤ k b) := by
    intro l'
    induction l' with
    | nil => intro acc h; simpa using h
    | cons c cs ih =>
      intro acc h
      exact ih _ (insertLt_sorted_key k c acc h)
  exact this l [] (by simp)

/-! ## Lemmas: the unified list -/

theorem unifySprites_length : ∀ (cs : List DrawCommand) (i : Nat),
    (unifySprites i cs).length = cs.length := by
  intro cs
  induction cs with
  | nil => intro i; rfl
  | cons c cs ih => intro i; simp [unifySprites, ih]

theorem unifyGeoms_length : ∀ (gs : List GeometryCommand) (i : Nat),
    (unifyGeoms i gs).length = gs.length := by
  intro gs
  induction gs with
  | nil => intro i; rfl
  | cons g gs ih => intro i; simp [unifyGeoms, ih]

theorem unifySprites_mem : ∀ (cs : List DrawCommand) (i : Nat),
    ∀ u ∈ unifySprites i cs, u.isSprite = true ∧ i ≤ u.index ∧
      ∃ c ∈ cs, u.texture = c.texture ∧ u.layer = c.layer := by
  intro cs
  induction cs with
  | nil => intro i u hu; simp [unifySprites] at hu
  | cons c cs ih =>
    intro i u hu
    rw [unifySprites] at hu
    rcases List.mem_cons.mp hu with hu | hu
    · subst hu
      exact ⟨rfl, le_refl _, c, by simp, rfl, rfl⟩
    · obtain ⟨h1, h2, d, hd, h3, h4⟩ := ih (i + 1) u hu
      exact ⟨h1, by omega, d, by simp [hd], h3, h4⟩

theorem unifyGeoms_mem : ∀ (gs : List GeometryCommand) (i : Nat),
    ∀ u ∈ unifyGeoms i gs, u.isSprite = false ∧ i ≤ u.index ∧
      ∃ g ∈ gs, u.texture = g.texture ∧ u.layer = g.layer := by
  intro gs
  induction gs with
  | nil => intro i u hu; simp [unifyGeoms] at hu
  | cons g gs ih =>
    intro i u hu
    rw [unifyGeoms] at hu
    rcases List.mem_cons.mp hu with hu | hu
    · subst hu
      exact ⟨rfl, le_refl _, g, by simp, rfl, rfl⟩
    · obtain ⟨h1, h2, d, hd, h3, h4⟩ := ih (i + 1) u hu
      exact ⟨h1, by omega, d, by simp [hd], h3, h4⟩

/-- Looking up a unified geometry entry in the (same) geometry list it was
built from returns the command it was built from. -/
theorem unifyGeoms_lookup (geos : List GeometryCommand) :
    ∀ (suf : List GeometryCommand) (i : Nat), geos.drop i = suf →
      ∀ u ∈ unifyGeoms i suf, u.isSprite = false ∧
        geos.getD u.index default ∈ suf ∧
        u.texture = (geos.getD u.index default).texture ∧
        u.layer = (geos.getD u.index default).layer := by
  intro suf
  induction suf with
  | nil => intro i _ u hu; simp [unifyGeoms] at hu
  | cons g gs ih =>
    intro i hdrop u hu
    have hget : geos[i]? = some g := by
      have h0 : (geos.drop i)[0]? = geos[i + 0]? := List.getElem?_drop geos i 0
      rw [hdrop] at h0
      simpa using h0.symm
    have hgetD : geos.getD i default = g := by
      rw [List.getD_eq_getElem?_getD, hget]
      rfl
    have hdrop' : geos.drop (i + 1) = gs := by
      have h := List.drop_drop 1 i geos
      rw [hdrop] at h
      simpa [Nat.add_comm i 1] using h.symm
    rw [unifyGeoms] at hu
    rcases List.mem_cons.mp hu with hu | hu
    · subst hu
      refine ⟨rfl, ?_, ?_, ?_⟩ <;> simp [List.getD_eq_getElem?_getD, hget]
    · obtain ⟨h1, h2, h3, h4⟩ := ih (i + 1) hdrop' u hu
      exact ⟨h1, List.mem_cons_of_mem g h2, h3, h4⟩

/-- Sum over the unified geometry entries of a function of the looked-up
command equals the sum over the geometry list itself. -/
theorem unifyGeoms_sum (geos : List GeometryCommand) (F : GeometryCommand → Nat) :
    ∀ (suf : List GeometryCommand) (i : Nat), geos.drop i = suf →
      ((unifyGeoms i suf).map (fun u => F (geos.getD u.index default))).sum =
        (suf.map F).sum := by
  intro suf
  induction suf with
  | nil => intro i _; rfl
  | cons g gs ih =>
    intro i hdrop
    have hget : geos[i]? = some g := by
      have h0 : (geos.drop i)[0]? = geos[i + 0]? := List.getElem?_drop geos i 0
      rw [hdrop] at h0
      simpa using h0.symm
    have hgetD : geos.getD i default = g := by
      rw [List.getD_eq_getElem?_getD, hget]
      rfl
    have hdrop' : geos.drop (i + 1) = gs := by
      have h := List.drop_drop 1 i geos
      rw [hdrop] at h
      simpa [Nat.add_comm i 1] using h.symm
    rw [unifyGeoms]
    simp only [List.map_cons, List.sum_cons, hgetD, ih (i + 1) hdrop']

theorem unifySprites_index_pairwise : ∀ (cs : List DrawCommand) (i : Nat),
    (unifySprites i cs).Pairwise (fun a b => a.index < b.index) := by
  intro cs
  induction cs with
  | nil => intro i; simp [unifySprites]
  | cons c cs ih =>
    intro i
    rw [unifySprites]
    refine List.Pairwise.cons ?_ (ih (i + 1))
    intro u hu
    have := (unifySprites_mem cs (i + 1) u hu).2.1
    simpa using by omega

theorem unifyGeoms_index_pairwise : ∀ (gs : List GeometryCommand) (i : Nat),
    (unifyGeoms i gs).Pairwise (fun a b => a.index < b.index) := by
  intro gs
  induction gs with
  | nil => intro i; simp [unifyGeoms]
  | cons g gs ih =>
    intro i
    rw [unifyGeoms]
    refine List.Pairwise.cons ?_ (ih (i + 1))
    intro u hu
    have := (unifyGeoms_mem gs (i + 1) u hu).2.1
    simpa using by omega

/-- Distinct entries of the as-built unified list never share both kind tag
and index. -/
theorem mkUnified_tag_pairwise (cmds : List DrawCommand) (geos : List GeometryCommand) :
    (mkUnified cmds geos).Pairwise
      (fun a b => a.isSprite ≠ b.isSprite ∨ a.index ≠ b.index) := by
  rw [mkUnified, List.pairwise_append]
  refine ⟨?_, ?_, ?_⟩
  · exact (unifySprites_index_pairwise cmds 0).imp (fun h => Or.inr (by omega))
  · exact (unifyGeoms_index_pairwise geos 0).imp (fun h => Or.inr (by omega))
  · intro a ha b hb
    have h1 := (unifySprites_mem cmds 0 a ha).1
    have h2 := (unifyGeoms_mem geos 0 b hb).1
    exact Or.inl (by rw [h1, h2]; simp)

/-! ## Lemmas: vertex/index builder -/

theorem emitVertsOf_length (cosF sinF : Rat → Rat) (cmds : List DrawCommand)
    (geos : List GeometryCommand) (u : UnifiedCommand) :
    (emitVertsOf cosF sinF cmds geos u).length = emittedVertexCount geos u := by
  rw [emitVertsOf, emittedVertexCount]
  split
  · simp [spriteVertices]
  · rw [geomEmittedVertices]
    split <;> simp

theorem concatEmit_nil (f : α → List β) : concatEmit f [] = [] := rfl

theorem concatEmit_cons (f : α → List β) (a : α) (as : List α) :
    concatEmit f (a :: as) = f a ++ concatEmit f as := rfl

theorem concatEmit_length (f : α → List β) (l : List α) :
    (concatEmit f l).length = (l.map (fun a => (f a).length)).sum := by
  induction l with
  | nil => rfl
  | cons a as ih => simp [concatEmit, ih]

theorem emitCommand_fields (cosF sinF : Rat → Rat) (cmds : List DrawCommand)
    (geos : List GeometryCommand) (acc : MergeAcc) (u : UnifiedCommand) :
    (emitCommand cosF sinF cmds geos acc u).vBase =
      acc.vBase + emittedVertexCount geos u ∧
    (emitCommand cosF sinF cmds geos acc u).iBase =
      acc.iBase + emittedIndexCount geos u ∧
    (emitCommand cosF sinF cmds geos acc u).vScratch =
      acc.vScratch ++ emitVertsOf cosF sinF cmds geos u ∧
    (emitCommand cosF sinF cmds geos acc u).iScratch.length =
      acc.iScratch.length + emittedIndexCount geos u := by
  have hv : (if u.isSprite = true then spriteVertices cosF sinF (cmds.getD u.index default)
      else geomEmittedVertices (geos.getD u.index default)) =
      emitVertsOf cosF sinF cmds geos u := rfl
  have hvl : (emitVertsOf cosF sinF cmds geos u).length = emittedVertexCount geos u :=
    emitVertsOf_length cosF sinF cmds geos u
  have hil : (if u.isSprite = true then spriteIndices acc.vBase
      else (geos.getD u.index default).indices.map
        (fun k => (acc.vBase % u32Size + k) % u32Size)).length =
      emittedIndexCount geos u := by
    rw [emittedIndexCount]
    split
    · rfl
    · simp
  rw [emitCommand]
  dsimp only
  rw [hv]
  generalize hI : (if u.isSprite = true then spriteIndices acc.vBase
      else List.map (fun k => (acc.vBase % u32Size + k) % u32Size)
        (geos.getD u.index default).indices) = I
  generalize (if u.isSprite = true then ((false, ⟨0, 0, 0, 0⟩) : Bool × ScissorRect)
      else scissorOfGeom (geos.getD u.index default)) = S
  generalize hE : emitVertsOf cosF sinF cmds geos u = E
  have hIl : I.length = emittedIndexCount geos u := by rw [← hI]; exact hil
  have hEl : E.length = emittedVertexCount geos u := by rw [← hE]; exact hvl
  split
  · exact ⟨by rw [hEl], by rw [hIl], rfl, by rw [List.length_append, hIl]⟩
  · split
    · exact ⟨by rw [hEl], by rw [hIl], rfl, by rw [List.length_append, hIl]⟩
    · exact ⟨by rw [hEl], by rw [hIl], rfl, by rw [List.length_append, hIl]⟩

theorem buildLoop_fields (cosF sinF : Rat → Rat) (cmds : List DrawCommand)
    (geos : List GeometryCommand) :
    ∀ (us : List UnifiedCommand) (acc : MergeAcc),
      (us.foldl (emitCommand cosF sinF cmds geos) acc).vBase =
        acc.vBase + totalVerts geos us ∧
      (us.foldl (emitCommand cosF sinF cmds geos) acc).iBase =
        acc.iBase + totalIdxs geos us ∧
      (us.foldl (emitCommand cosF sinF cmds geos) acc).vScratch =
        acc.vScratch ++ concatEmit (emitVertsOf cosF sinF cmds geos) us ∧
      (us.foldl (emitCommand cosF sinF cmds geos) acc).iScratch.length =
        acc.iScratch.length + totalIdxs geos us := by
  intro us
  induction us with
  | nil =>
    intro acc
    simp [totalVerts, totalIdxs, concatEmit]
  | cons u us ih =>
    intro acc
    obtain ⟨s1, s2, s3, s4⟩ := emitCommand_fields cosF sinF cmds geos acc u
    obtain ⟨i1, i2, i3, i4⟩ := ih (emitCommand cosF sinF cmds geos acc u)
    refine ⟨?_, ?_, ?_, ?_⟩
    · rw [List.foldl_cons, i1, s1]
      simp only [totalVerts, List.map_cons, List.sum_cons]
      omega
    · rw [List.foldl_cons, i2, s2]
      simp only [totalIdxs, List.map_cons, List.sum_cons]
      omega
    · rw [List.foldl_cons, i3, s3, concatEmit_cons, List.append_assoc]
    · rw [List.foldl_cons, i4, s4]
      simp only [totalIdxs, List.map_cons, List.sum_cons]
      omega

theorem buildAll_fields (cosF sinF : Rat → Rat) (cmds : List DrawCommand)
    (geos : List GeometryCommand) (us : List UnifiedCommand) :
    (buildAll cosF sinF cmds geos us).vScratch =
      concatEmit (emitVertsOf cosF sinF cmds geos) us ∧
    (buildAll cosF sinF cmds geos us).vScratch.length = totalVerts geos us ∧
    (buildAll cosF sinF cmds geos us).iScratch.length = totalIdxs geos us := by
  obtain ⟨h1, h2, h3, h4⟩ := buildLoop_fields cosF sinF cmds geos us initAcc
  rw [buildAll]
  refine ⟨by simpa [initAcc] using h3, ?_, by simpa [initAcc] using h4⟩
  rw [h3]
  simp only [initAcc, List.nil_append, List.length_nil, Nat.zero_add]
  rw [concatEmit_length]
  rw [totalVerts]
  congr 1
  exact List.map_congr_left (fun u _ => emitVertsOf_length cosF sinF cmds geos u)

/-! ## Lemmas: total counts -/

theorem totalVerts_mkUnified (cmds : List DrawCommand) (geos : List GeometryCommand) :
    totalVerts geos (mkUnified cmds geos) =
      4 * cmds.length + (geos.map (fun g => g.vertices.length)).sum := by
  rw [totalVerts, mkUnified, List.map_append, List.sum_append]
  congr 1
  · have hc : (unifySprites 0 cmds).map (emittedVertexCount geos) =
        (unifySprites 0 cmds).map (fun _ => 4) := by
      refine List.map_congr_left ?_
      intro u hu
      rw [emittedVertexCount, if_pos (unifySprites_mem cmds 0 u hu).1]
    rw [hc, List.map_const', List.sum_replicate, unifySprites_length]
    simp [Nat.mul_comm]
  · have hc : (unifyGeoms 0 geos).map (emittedVertexCount geos) =
        (unifyGeoms 0 geos).map (fun u => (geos.getD u.index default).vertices.length) := by
      refine List.map_congr_left ?_
      intro u hu
      rw [emittedVertexCount, if_neg]
      rw [(unifyGeoms_mem geos 0 u hu).1]
      simp
    rw [hc]
    exact unifyGeoms_sum geos (fun g => g.vertices.length) geos 0 rfl

theorem totalIdxs_mkUnified (cmds : List DrawCommand) (geos : List GeometryCommand) :
    totalIdxs geos (mkUnified cmds geos) =
      6 * cmds.length + (geos.map (fun g => g.indices.length)).sum := by
  rw [totalIdxs, mkUnified, List.map_append, List.sum_append]
  congr 1
  · have hc : (unifySprites 0 cmds).map (emittedIndexCount geos) =
        (unifySprites 0 cmds).map (fun _ => 6) := by
      refine List.map_congr_left ?_
      intro u hu
      rw [emittedIndexCount, if_pos (unifySprites_mem cmds 0 u hu).1]
    rw [hc, List.map_const', List.sum_replicate, unifySprites_length]
    simp [Nat.mul_comm]
  · have hc : (unifyGeoms 0 geos).map (emittedIndexCount geos) =
        (unifyGeoms 0 geos).map (fun u => (geos.getD u.index default).indices.length) := by
      refine List.map_congr_left ?_
      intro u hu
      rw [emittedIndexCount, if_neg]
      rw [(unifyGeoms_mem geos 0 u hu).1]
      simp
    rw [hc]
    exact unifyGeoms_sum geos (fun g => g.indices.length) geos 0 rfl

theorem totalVerts_sortedUnified (cmds : List DrawCommand) (geos : List GeometryCommand) :
    totalVerts geos (sortedUnified cmds geos) =
      4 * cmds.length + (geos.map (fun g => g.vertices.length)).sum := by
  rw [← totalVerts_mkUnified]
  rw [totalVerts, totalVerts]
  exact ((stableSort_perm (ucLess geos) (mkUnified cmds geos)).map
    (emittedVertexCount geos)).sum_eq

theorem totalIdxs_sortedUnified (cmds : List DrawCommand) (geos : List GeometryCommand) :
    totalIdxs geos (sortedUnified cmds geos) =
      6 * cmds.length + (geos.map (fun g => g.indices.length)).sum := by
  rw [← totalIdxs_mkUnified]
  rw [totalIdxs, totalIdxs]
  exact ((stableSort_perm (ucLess geos) (mkUnified cmds geos)).map
    (emittedIndexCount geos)).sum_eq

/-! ## Lemmas: the filter step -/

theorem mem_filter_sprite {l : List DrawCommand} {c : DrawCommand}
    (h : c ∈ l.filter (fun c => !spriteDropped c)) : validTexPtr c.texture := by
  have hd : spriteDropped c = false := by
    have := (List.mem_filter.mp h).2
    simpa using this
  rw [spriteDropped] at hd
  match hc : c.texture with
  | none => rw [hc] at hd; simp at hd
  | some t =>
    rw [hc] at hd
    simp only [Option.isNone_eq_false_iff, Option.isSome_iff_exists] at hd
    obtain ⟨s, hs⟩ := hd
    exact ⟨t, s, rfl, hs⟩

theorem mem_filter_geom {l : List GeometryCommand} {g : GeometryCommand}
    (h : g ∈ l.filter (fun g => !geomDropped g)) :
    g.vertices ≠ [] ∧ g.indices ≠ [] ∧ validTexPtr g.texture := by
  have hd : geomDropped g = false := by
    have := (List.mem_filter.mp h).2
    simpa using this
  rw [geomDropped] at hd
  simp only [Bool.or_eq_false_iff, List.isEmpty_eq_false, ← List.isEmpty_iff, Bool.not_eq_true]
    at hd
  refine ⟨hd.1.1, hd.1.2, ?_⟩
  have hd2 := hd.2
  match hc : g.texture with
  | none => rw [hc] at hd2; simp at hd2
  | some t =>
    rw [hc] at hd2
    simp only [Option.isNone_eq_false_iff, Option.isSome_iff_exists] at hd2
    obtain ⟨s, hs⟩ := hd2
    exact ⟨t, s, rfl, hs⟩

theorem totals_pos (cmds : List DrawCommand) (geos : List GeometryCommand)
    (hg : ∀ g ∈ geos, g.vertices ≠ [] ∧ g.indices ≠ [])
    (hne : ¬(cmds = [] ∧ geos = [])) :
    totalVerts geos (sortedUnified cmds geos) ≠ 0 ∧
    totalIdxs geos (sortedUnified cmds geos) ≠ 0 := by
  rw [totalVerts_sortedUnified, totalIdxs_sortedUnified]
  match cmds with
  | _ :: _ => constructor <;> simp
  | [] =>
    match geos with
    | [] => exact absurd ⟨rfl, rfl⟩ hne
    | g :: gs =>
      obtain ⟨h1, h2⟩ := hg g (by simp)
      constructor
      · simp only [List.map_cons, List.sum_cons]
        have : g.vertices.length ≠ 0 := by simpa using h1
        omega
      · simp only [List.map_cons, List.sum_cons]
        have : g.indices.length ≠ 0 := by simpa using h2
        omega

/-! ## Lemmas: `endFrame` control flow -/

theorem endFrame_fields (cosF sinF : Rat → Rat) (vA iA : Nat → Bool) (mV mI : Bool)
    (b : Batch) (hv : ∀ n, vA n = true) (hi : ∀ n, iA n = true)
    (hne : ¬(b.commands.filter (fun c => !spriteDropped c) = [] ∧
             b.geometryCommands.filter (fun g => !geomDropped g) = [])) :
    (endFrame cosF sinF vA iA mV mI b).commands =
      b.commands.filter (fun c => !spriteDropped c) ∧
    (endFrame cosF sinF vA iA mV mI b).geometryCommands =
      b.geometryCommands.filter (fun g => !geomDropped g) ∧
    (endFrame cosF sinF vA iA mV mI b).unifiedCommands =
      sortedUnified (b.commands.filter (fun c => !spriteDropped c))
        (b.geometryCommands.filter (fun g => !geomDropped g)) ∧
    (endFrame cosF sinF vA iA mV mI b).vertexScratch =
      (buildAll cosF sinF (b.commands.filter (fun c => !spriteDropped c))
        (b.geometryCommands.filter (fun g => !geomDropped g))
        (sortedUnified (b.commands.filter (fun c => !spriteDropped c))
          (b.geometryCommands.filter (fun g => !geomDropped g)))).vScratch ∧
    (endFrame cosF sinF vA iA mV mI b).indexScratch =
      (buildAll cosF sinF (b.commands.filter (fun c => !spriteDropped c))
        (b.geometryCommands.filter (fun g => !geomDropped g))
        (sortedUnified (b.commands.filter (fun c => !spriteDropped c))
          (b.geometryCommands.filter (fun g => !geomDropped g)))).iScratch ∧
    (endFrame cosF sinF vA iA mV mI b).drawRanges =
      rangesClosed (buildAll cosF sinF (b.commands.filter (fun c => !spriteDropped c))
        (b.geometryCommands.filter (fun g => !geomDropped g))
        (sortedUnified (b.commands.filter (fun c => !spriteDropped c))
          (b.geometryCommands.filter (fun g => !geomDropped g)))) ∧
    (endFrame cosF sinF vA iA mV mI b).statsDrawCalls =
      (if mV = true ∧ mI = true then
        (b.statsDrawCalls +
          (rangesClosed (buildAll cosF sinF (b.commands.filter (fun c => !spriteDropped c))
            (b.geometryCommands.filter (fun g => !geomDropped g))
            (sortedUnified (b.commands.filter (fun c => !spriteDropped c))
              (b.geometryCommands.filter (fun g => !geomDropped g))))).length) % u32Size
       else b.statsDrawCalls) := by
  have hg : ∀ g ∈ b.geometryCommands.filter (fun g => !geomDropped g),
      g.vertices ≠ [] ∧ g.indices ≠ [] := by
    intro g hgm
    exact ⟨(mem_filter_geom hgm).1, (mem_filter_geom hgm).2.1⟩
  obtain ⟨htv, hti⟩ := totals_pos (b.commands.filter (fun c => !spriteDropped c))
    (b.geometryCommands.filter (fun g => !geomDropped g)) hg hne
  have hcond : ¬(((b.commands.filter (fun c => !spriteDropped c)).isEmpty &&
      (b.geometryCommands.filter (fun g => !geomDropped g)).isEmpty) = true) := by
    intro hcon
    rw [Bool.and_eq_true] at hcon
    exact hne ⟨List.isEmpty_iff.mp hcon.1, List.isEmpty_iff.mp hcon.2⟩
  have keyV : ∀ (bb : Batch) (n : Nat),
      ensureVertexCapacity vA bb n = (true, (ensureVertexCapacity vA bb n).2) :=
    fun bb n => Prod.ext_iff.mpr ⟨ensureVertexCapacity_allocTrue vA hv bb n, rfl⟩
  have keyI : ∀ (bb : Batch) (n : Nat),
      ensureIndexCapacity iA bb n = (true, (ensureIndexCapacity iA bb n).2) :=
    fun bb n => Prod.ext_iff.mpr ⟨ensureIndexCapacity_allocTrue iA hi bb n, rfl⟩
  have F : ∀ (bb : Batch) (n m : Nat),
      sameFrameFields (ensureIndexCapacity iA (ensureVertexCapacity vA bb n).2 m).2 bb :=
    fun bb n m =>
      sameFrameFields_trans (ensureIndexCapacity_frame iA _ _).1
        (ensureVertexCapacity_frame vA _ _).1
  rw [endFrame]
  dsimp only
  rw [if_neg hcond]
  rw [if_neg (by simp [htv, hti])]
  rw [keyV]
  dsimp only
  rw [keyI]
  dsimp only
  cases mV with
  | false =>
    rw [if_pos rfl]
    refine ⟨(F _ _ _).1, (F _ _ _).2.1, (F _ _ _).2.2.1, rfl, rfl, rfl, ?_⟩
    rw [if_neg (by simp)]
    exact (F _ _ _).2.2.2.2.2.2.2.1
  | true =>
    rw [if_neg (by simp)]
    cases mI with
    | false =>
      rw [if_pos rfl]
      refine ⟨(F _ _ _).1, (F _ _ _).2.1, (F _ _ _).2.2.1, rfl, rfl, rfl, ?_⟩
      rw [if_neg (by simp)]
      exact (F _ _ _).2.2.2.2.2.2.2.1
    | true =>
      rw [if_neg (by simp)]
      refine ⟨(F _ _ _).1, (F _ _ _).2.1, (F _ _ _).2.2.1, rfl, rfl, rfl, ?_⟩
      rw [if_pos ⟨rfl, rfl⟩]
      exact congrArg (fun s => (s + _) % u32Size) ((F _ _ _).2.2.2.2.2.2.2.1)

/-! ## Lemmas: the comparator realises the lexicographic key -/

theorem ucLess_eq_keyLt (geos : List GeometryCommand) (a b : UnifiedCommand) :
    ucLess geos a b = decide (ucKey geos a < ucKey geos b) := by
  rw [ucLess]
  dsimp only
  simp only [List.getD_eq_getElem?_getD]
  split_ifs with h1 h2 h3 h4 h5 h6 h7 h8 h9
  all_goals
    simp only [ucKey, clipComp, kindRank, List.getD_eq_getElem?_getD, Prod.Lex.lt_iff,
      toLex_inj, Prod.mk.injEq, decide_eq_decide]
  -- layer differs
  · exact ⟨Or.inl, fun h => h.elim id (fun he => absurd he.1 h1)⟩
  -- layer ties, SRV differs
  · rw [not_ne_iff] at h1
    simp [h1, h2]
  -- layer and SRV tie, kind differs
  · rw [not_ne_iff] at h1 h2
    cases ha : a.isSprite <;> cases hb : b.isSprite
    · exact absurd (ha.trans hb.symm) h3
    · simp [h1, h2, ha, hb]
    · simp [h1, h2, ha, hb]
    · exact absurd (ha.trans hb.symm) h3
  -- both geometry, clip-rect presence differs
  · rw [not_ne_iff] at h1 h2 h3
    have hb : b.isSprite = false := h3 ▸ h4
    cases hca : (geos[a.index]?.getD default).hasClipRect <;>
      cases hcb : (geos[b.index]?.getD default).hasClipRect
    · exact absurd (hca.trans hcb.symm) h5
    · simp [h1, h2, h4, hb, hca, hcb, WithBot.bot_lt_coe]
    · simp [h1, h2, h4, hb, hca, hcb, not_lt_bot]
    · exact absurd (hca.trans hcb.symm) h5
  -- both geometry, both clipped, clip x differs
  · rw [not_ne_iff] at h1 h2 h3
    have hb : b.isSprite = false := h3 ▸ h4
    obtain ⟨hca, hx⟩ := Bool.and_eq_true _ _ ▸ h6
    rw [not_ne_iff] at h5
    have hcb : (geos[b.index]?.getD default).hasClipRect = true := h5 ▸ hca
    have hx' := of_decide_eq_true hx
    simp [h1, h2, h4, hb, hca, hcb, WithBot.coe_lt_coe, WithBot.coe_eq_coe,
      Prod.Lex.lt_iff, toLex_inj, Prod.mk.injEq, hx']
  -- clip x ties, y differs
  · rw [not_ne_iff] at h1 h2 h3 h5
    have hb : b.isSprite = false := h3 ▸ h4
    obtain ⟨hca, hy⟩ := Bool.and_eq_true _ _ ▸ h7
    have hcb : (geos[b.index]?.getD default).hasClipRect = true := h5 ▸ hca
    have hx : (geos[a.index]?.getD default).clipRect.x =
        (geos[b.index]?.getD default).clipRect.x := by
      rcases Bool.and_eq_false_iff.mp (Bool.not_eq_true _ ▸ h6) with h | h
      · rw [h] at hca; exact absurd hca (by simp)
      · exact not_ne_iff.mp (of_decide_eq_false h)
    have hy' := of_decide_eq_true hy
    simp [h1, h2, h4, hb, hca, hcb, WithBot.coe_lt_coe, WithBot.coe_eq_coe,
      Prod.Lex.lt_iff, toLex_inj, Prod.mk.injEq, hx, hy']
  -- clip x/y tie, w differs
  · rw [not_ne_iff] at h1 h2 h3 h5
    have hb : b.isSprite = false := h3 ▸ h4
    obtain ⟨hca, hw⟩ := Bool.and_eq_true _ _ ▸ h8
    have hcb : (geos[b.index]?.getD default).hasClipRect = true := h5 ▸ hca
    have hx : (geos[a.index]?.getD default).clipRect.x =
        (geos[b.index]?.getD default).clipRect.x := by
      rcases Bool.and_eq_false_iff.mp (Bool.not_eq_true _ ▸ h6) with h | h
      · rw [h] at hca; exact absurd hca (by simp)
      · exact not_ne_iff.mp (of_decide_eq_false h)
    have hy : (geos[a.index]?.getD default).clipRect.y =
        (geos[b.index]?.getD default).clipRect.y := by
      rcases Bool.and_eq_false_iff.mp (Bool.not_eq_true _ ▸ h7) with h | h
      · rw [h] at hca; exact absurd hca (by simp)
      · exact not_ne_iff.mp (of_decide_eq_false h)
    have hw' := of_decide_eq_true hw
    simp [h1, h2, h4, hb, hca, hcb, WithBot.coe_lt_coe, WithBot.coe_eq_coe,
      Prod.Lex.lt_iff, toLex_inj, Prod.mk.injEq, hx, hy, hw']
  -- clip x/y/w tie, h differs
  · rw [not_ne_iff] at h1 h2 h3 h5
    have hb : b.isSprite = false := h3 ▸ h4
    obtain ⟨hca, hh⟩ := Bool.and_eq_true _ _ ▸ h9
    have hcb : (geos[b.index]?.getD default).hasClipRect = true := h5 ▸ hca
    have hx : (geos[a.index]?.getD default).clipRect.x =
        (geos[b.index]?.getD default).clipRect.x := by
      rcases Bool.and_eq_false_iff.mp (Bool.not_eq_true _ ▸ h6) with h | h
      · rw [h] at hca; exact absurd hca (by simp)
      · exact not_ne_iff.mp (of_decide_eq_false h)
    have hy : (geos[a.index]?.getD default).clipRect.y =
        (geos[b.index]?.getD default).clipRect.y := by
      rcases Bool.and_eq_false_iff.mp (Bool.not_eq_true _ ▸ h7) with h | h
      · rw [h] at hca; exact absurd hca (by simp)
      · exact not_ne_iff.mp (of_decide_eq_false h)
    have hw : (geos[a.index]?.getD default).clipRect.w =
        (geos[b.index]?.getD default).clipRect.w := by
      rcases Bool.and_eq_false_iff.mp (Bool.not_eq_true _ ▸ h8) with h | h
      · rw [h] at hca; exact absurd hca (by simp)
      · exact not_ne_iff.mp (of_decide_eq_false h)
    have hh' := of_decide_eq_true hh
    simp [h1, h2, h4, hb, hca, hcb, WithBot.coe_lt_coe, WithBot.coe_eq_coe,
      Prod.Lex.lt_iff, toLex_inj, Prod.mk.injEq, hx, hy, hw, hh']
  -- both geometry, clip state fully ties: submission index decides
  · rw [not_ne_iff] at h1 h2 h3 h5
    have hb : b.isSprite = false := h3 ▸ h4
    cases hca : (geos[a.index]?.getD default).hasClipRect
    · have hcb : (geos[b.index]?.getD default).hasClipRect = false := h5 ▸ hca
      simp [h1, h2, h4, hb, hca, hcb, not_lt_bot]
    · have hcb : (geos[b.index]?.getD default).hasClipRect = true := h5 ▸ hca
      have hx : (geos[a.index]?.getD default).clipRect.x =
          (geos[b.index]?.getD default).clipRect.x := by
        rcases Bool.and_eq_false_iff.mp (Bool.not_eq_true _ ▸ h6) with h | h
        · rw [h] at hca; exact absurd hca (by simp)
        · exact not_ne_iff.mp (of_decide_eq_false h)
      have hy : (geos[a.index]?.getD default).clipRect.y =
          (geos[b.index]?.getD default).clipRect.y := by
        rcases Bool.and_eq_false_iff.mp (Bool.not_eq_true _ ▸ h7) with h | h
        · rw [h] at hca; exact absurd hca (by simp)
        · exact not_ne_iff.mp (of_decide_eq_false h)
      have hw : (geos[a.index]?.getD default).clipRect.w =
          (geos[b.index]?.getD default).clipRect.w := by
        rcases Bool.and_eq_false_iff.mp (Bool.not_eq_true _ ▸ h8) with h | h
        · rw [h] at hca; exact absurd hca (by simp)
        · exact not_ne_iff.mp (of_decide_eq_false h)
      have hh : (geos[a.index]?.getD default).clipRect.h =
          (geos[b.index]?.getD default).clipRect.h := by
        rcases Bool.and_eq_false_iff.mp (Bool.not_eq_true _ ▸ h9) with h | h
        · rw [h] at hca; exact absurd hca (by simp)
        · exact not_ne_iff.mp (of_decide_eq_false h)
      simp [h1, h2, h4, hb, hca, hcb, WithBot.coe_lt_coe, WithBot.coe_eq_coe,
        Prod.Lex.lt_iff, toLex_inj, Prod.mk.injEq, hx, hy, hw, hh]
  -- both sprites: submission index decides
  · rw [not_ne_iff] at h1 h2 h3
    rw [Bool.not_eq_false] at h4
    have hb : b.isSprite = true := h3 ▸ h4
    simp [h1, h2, h4, hb, not_lt_bot]

theorem sortedUnified_eq_keySort (cmds : List DrawCommand) (geos : List GeometryCommand) :
    sortedUnified cmds geos =
      stableSort (fun a b => decide (ucKey geos a < ucKey geos b)) (mkUnified cmds geos) := by
  rw [sortedUnified]
  congr 1
  funext a b
  exact ucLess_eq_keyLt geos a b

theorem sortedUnified_perm (cmds : List DrawCommand) (geos : List GeometryCommand) :
    List.Perm (sortedUnified cmds geos) (mkUnified cmds geos) :=
  stableSort_perm _ _

theorem sortedUnified_sorted_le (cmds : List DrawCommand) (geos : List GeometryCommand) :
    (sortedUnified cmds geos).Pairwise (fun a b => ucKey geos a ≤ ucKey geos b) := by
  rw [sortedUnified_eq_keySort]
  exact stableSort_sorted_key _ _

theorem tag_ne_key_ne (geos : List GeometryCommand) {a b : UnifiedCommand}
    (h : a.isSprite ≠ b.isSprite ∨ a.index ≠ b.index) :
    ucKey geos a ≠ ucKey geos b := by
  intro he
  rw [ucKey, ucKey] at he
  simp only [toLex_inj, Prod.mk.injEq] at he
  obtain ⟨-, -, hk, -, hi⟩ := he
  rcases h with h | h
  · apply h
    rw [kindRank, kindRank] at hk
    cases ha : a.isSprite <;> cases hb : b.isSprite <;> simp [ha, hb] at hk ⊢
  · exact h hi

theorem sortedUnified_pairwise_lt (cmds : List DrawCommand) (geos : List GeometryCommand) :
    (sortedUnified cmds geos).Pairwise (fun a b => ucLess geos a b = true) := by
  have hsym : Symmetric (fun a b : UnifiedCommand =>
      a.isSprite ≠ b.isSprite ∨ a.index ≠ b.index) := by
    intro a b h
    rcases h with h | h
    · exact Or.inl (Ne.symm h)
    · exact Or.inr (Ne.symm h)
  have hne : (sortedUnified cmds geos).Pairwise
      (fun a b => a.isSprite ≠ b.isSprite ∨ a.index ≠ b.index) :=
    ((sortedUnified_perm cmds geos).pairwise_iff (fun hxy => hsym hxy)).mpr
      (mkUnified_tag_pairwise cmds geos)
  have hand := (sortedUnified_sorted_le cmds geos).and hne
  refine hand.imp ?_
  intro a b hab
  rw [ucLess_eq_keyLt]
  exact decide_eq_true (lt_of_le_of_ne hab.1 (tag_ne_key_ne geos hab.2))

/-! ## Lemmas: draw-range contiguity -/

theorem sumCounts_append (l l' : List DrawRange) :
    sumCounts (l ++ l') = sumCounts l + sumCounts l' := by
  simp [sumCounts]

theorem contiguousFromB_append_new :
    ∀ (l : List DrawRange) (k : Nat) (r : DrawRange),
      contiguousFromB k l = true → r.firstIndex = k + sumCounts l →
      contiguousFromB k (l ++ [r]) = true := by
  intro l
  induction l with
  | nil =>
    intro k r _ hr
    simp [contiguousFromB, sumCounts] at hr ⊢
    omega
  | cons r0 l ih =>
    intro k r hc hr
    rw [contiguousFromB, Bool.and_eq_true] at hc
    rw [List.cons_append, contiguousFromB, Bool.and_eq_true]
    refine ⟨hc.1, ih _ r hc.2 ?_⟩
    have h0 : r0.firstIndex = k := by simpa using hc.1
    rw [sumCounts] at hr
    simp only [List.map_cons, List.sum_cons] at hr
    rw [sumCounts]
    omega

theorem contiguousFromB_grow_last :
    ∀ (l : List DrawRange) (k : Nat) (r : DrawRange) (n : Nat),
      contiguousFromB k (l ++ [r]) = true →
      contiguousFromB k (l ++ [{ r with indexCount := r.indexCount + n }]) = true := by
  intro l
  induction l with
  | nil =>
    intro k r n hc
    simp [contiguousFromB] at hc ⊢
    exact hc
  | cons r0 l ih =>
    intro k r n hc
    rw [List.cons_append, contiguousFromB, Bool.and_eq_true] at hc
    rw [List.cons_append, contiguousFromB, Bool.and_eq_true]
    exact ⟨hc.1, ih _ r n hc.2⟩

/-- One step of the merge loop: when the uint32 bookkeeping cannot overflow,
the closed range list either gains a fresh range starting at the current
index cursor, or its last (pending) range grows by the command's count. -/
theorem emitCommand_ranges (cosF sinF : Rat → Rat) (cmds : List DrawCommand)
    (geos : List GeometryCommand) (acc : MergeAcc) (u : UnifiedCommand)
    (hlt : acc.iBase + emittedIndexCount geos u < u32Size)
    (hcur : acc.currentRange.indexCount ≤ acc.iBase) :
    (emitCommand cosF sinF cmds geos acc u).haveRange = true ∧
    ((∃ r : DrawRange, r.firstIndex = acc.iBase ∧
        r.indexCount = emittedIndexCount geos u ∧
        rangesClosed (emitCommand cosF sinF cmds geos acc u) = rangesClosed acc ++ [r]) ∨
     (rangesClosed acc = acc.ranges ++ [acc.currentRange] ∧
      rangesClosed (emitCommand cosF sinF cmds geos acc u) = acc.ranges ++
        [{ acc.currentRange with
            indexCount := acc.currentRange.indexCount + emittedIndexCount geos u }])) := by
  have hIl : (if u.isSprite = true then spriteIndices acc.vBase
      else (geos.getD u.index default).indices.map
        (fun k => (acc.vBase % u32Size + k) % u32Size)).length =
      emittedIndexCount geos u := by
    rw [emittedIndexCount]
    split
    · rfl
    · simp
  have hbase : acc.iBase % u32Size = acc.iBase := Nat.mod_eq_of_lt (by omega)
  rw [emitCommand]
  dsimp only
  rw [hIl, hbase]
  have hcount : (acc.iBase + emittedIndexCount geos u - acc.iBase) % u32Size =
      emittedIndexCount geos u := by
    rw [Nat.add_sub_cancel_left]
    exact Nat.mod_eq_of_lt (by omega)
  rw [hcount]
  generalize (if u.isSprite = true then spriteVertices cosF sinF (cmds.getD u.index default)
      else geomEmittedVertices (geos.getD u.index default)) = E
  generalize (if u.isSprite = true then ((false, ⟨0, 0, 0, 0⟩) : Bool × ScissorRect)
      else scissorOfGeom (geos.getD u.index default)) = S
  split
  · rename_i hhr
    refine ⟨rfl, Or.inl ⟨⟨u.texture, u.layer, acc.iBase, emittedIndexCount geos u,
      S.1, S.2⟩, rfl, rfl, ?_⟩⟩
    rw [rangesClosed, rangesClosed, hhr]
    simp
  · split
    · rename_i hhr _
      rw [Bool.not_eq_false] at hhr
      have hm : (acc.currentRange.indexCount + emittedIndexCount geos u) % u32Size =
          acc.currentRange.indexCount + emittedIndexCount geos u :=
        Nat.mod_eq_of_lt (by omega)
      rw [hm]
      refine ⟨hhr, Or.inr ⟨?_, ?_⟩⟩
      · rw [rangesClosed, hhr]
        simp
      · rw [rangesClosed]
        simp [hhr]
    · rename_i hhr _
      rw [Bool.not_eq_false] at hhr
      refine ⟨hhr, Or.inl ⟨⟨u.texture, u.layer, acc.iBase, emittedIndexCount geos u,
        S.1, S.2⟩, rfl, rfl, ?_⟩⟩
      rw [rangesClosed, rangesClosed, hhr]
      simp

/-- Invariant of the merge loop: the closed ranges are contiguous from 0,
their counts sum to the index cursor, and each count satisfies any
addition-closed property `P` that holds for every per-command count. -/
theorem mergeLoop_invariant (cosF sinF : Rat → Rat) (cmds : List DrawCommand)
    (geos : List GeometryCommand) (P : Nat → Prop)
    (hP : ∀ m n, P m → P n → P (m + n)) :
    ∀ (us : List UnifiedCommand) (acc : MergeAcc),
      (∀ u ∈ us, P (emittedIndexCount geos u)) →
      acc.iBase + totalIdxs geos us < u32Size →
      contiguousFromB 0 (rangesClosed acc) = true →
      sumCounts (rangesClosed acc) = acc.iBase →
      (acc.haveRange = false →
        acc.ranges = [] ∧ acc.iBase = 0 ∧ acc.currentRange.indexCount = 0) →
      (∀ r ∈ rangesClosed acc, P r.indexCount) →
      (contiguousFromB 0
        (rangesClosed (us.foldl (emitCommand cosF sinF cmds geos) acc)) = true ∧
       sumCounts (rangesClosed (us.foldl (emitCommand cosF sinF cmds geos) acc)) =
        (us.foldl (emitCommand cosF sinF cmds geos) acc).iBase ∧
       (∀ r ∈ rangesClosed (us.foldl (emitCommand cosF sinF cmds geos) acc),
        P r.indexCount)) := by
  intro us
  induction us with
  | nil =>
    intro acc _ _ h1 h2 _ h4
    exact ⟨h1, h2, h4⟩
  | cons u us ih =>
    intro acc hcmd hbound h1 h2 h3 h4
    have hn : P (emittedIndexCount geos u) := hcmd u (by simp)
    have hbound' : acc.iBase + emittedIndexCount geos u < u32Size := by
      rw [totalIdxs] at hbound
      simp only [List.map_cons, List.sum_cons] at hbound
      omega
    have hcur : acc.currentRange.indexCount ≤ acc.iBase := by
      by_cases hhr : acc.haveRange = false
      · have := (h3 hhr).2
        omega
      · rw [Bool.not_eq_false] at hhr
        have hmem : acc.currentRange ∈ rangesClosed acc := by
          rw [rangesClosed, hhr]
          simp
        calc acc.currentRange.indexCount
            ≤ sumCounts (rangesClosed acc) := by
              rw [sumCounts]
              exact List.single_le_sum (by simp) _
                (List.mem_map_of_mem (fun r => r.indexCount) hmem)
          _ = acc.iBase := h2
    obtain ⟨ehr, hcase⟩ := emitCommand_ranges cosF sinF cmds geos acc u hbound' hcur
    obtain ⟨e1, e2, _, _⟩ := emitCommand_fields cosF sinF cmds geos acc u
    rw [List.foldl_cons]
    have hbound2 : (emitCommand cosF sinF cmds geos acc u).iBase +
        totalIdxs geos us < u32Size := by
      rw [e2]
      rw [totalIdxs] at hbound ⊢
      simp only [List.map_cons, List.sum_cons] at hbound
      omega
    refine ih (emitCommand cosF sinF cmds geos acc u)
      (fun v hv => hcmd v (by simp [hv])) hbound2 ?_ ?_ (by simp [ehr]) ?_
    · rcases hcase with ⟨r, hrf, _, hreq⟩ | ⟨hold, hreq⟩
      · rw [hreq]
        exact contiguousFromB_append_new _ 0 r h1 (by rw [hrf, h2]; omega)
      · rw [hreq]
        rw [hold] at h1
        exact contiguousFromB_grow_last _ 0 _ _ h1
    · rcases hcase with ⟨r, _, hrc, hreq⟩ | ⟨hold, hreq⟩
      · rw [hreq, sumCounts_append, h2, e2]
        simp [sumCounts, hrc]
      · rw [hreq, sumCounts_append, e2]
        rw [hold, sumCounts_append] at h2
        simp only [sumCounts, List.map_cons, List.map_nil, List.sum_cons,
          List.sum_nil] at h2 ⊢
        omega
    · intro r hr
      rcases hcase with ⟨r', _, hrc, hreq⟩ | ⟨hold, hreq⟩
      · rw [hreq] at hr
        rcases List.mem_append.mp hr with hr | hr
        · exact h4 r hr
        · have : r = r' := by simpa using hr
          rw [this, hrc]
          exact hn
      · rw [hreq] at hr
        rcases List.mem_append.mp hr with hr | hr
        · exact h4 r (by rw [hold]; exact List.mem_append_left _ hr)
        · have hrr : r = { acc.currentRange with
              indexCount := acc.currentRange.indexCount + emittedIndexCount geos u } := by
            simpa using hr
          rw [hrr]
          exact hP _ _ (h4 acc.currentRange (by rw [hold]; simp)) hn

/-! ## Lemmas: draw-range textures come from unified commands -/

theorem emitCommand_textures (cosF sinF : Rat → Rat) (cmds : List DrawCommand)
    (geos : List GeometryCommand) (acc : MergeAcc) (u : UnifiedCommand) :
    ((emitCommand cosF sinF cmds geos acc u).currentRange.texture = u.texture ∨
     (acc.haveRange = true ∧
      (emitCommand cosF sinF cmds geos acc u).currentRange.texture =
        acc.currentRange.texture)) ∧
    (∀ r ∈ (emitCommand cosF sinF cmds geos acc u).ranges,
      r ∈ acc.ranges ∨ (acc.haveRange = true ∧ r = acc.currentRange)) ∧
    (emitCommand cosF sinF cmds geos acc u).haveRange = true := by
  rw [emitCommand]
  dsimp only
  generalize (if u.isSprite = true then spriteVertices cosF sinF (cmds.getD u.index default)
      else geomEmittedVertices (geos.getD u.index default)) = E
  generalize (if u.isSprite = true then spriteIndices acc.vBase
      else (geos.getD u.index default).indices.map
        (fun k => (acc.vBase % u32Size + k) % u32Size)) = I
  generalize (if u.isSprite = true then ((false, ⟨0, 0, 0, 0⟩) : Bool × ScissorRect)
      else scissorOfGeom (geos.getD u.index default)) = S
  split
  · exact ⟨Or.inl rfl, fun r hr => Or.inl hr, rfl⟩
  · rename_i hhr
    rw [Bool.not_eq_false] at hhr
    split
    · exact ⟨Or.inr ⟨hhr, rfl⟩, fun r hr => Or.inl hr, hhr⟩
    · refine ⟨Or.inl rfl, ?_, hhr⟩
      intro r hr
      rcases List.mem_append.mp hr with hr | hr
      · exact Or.inl hr
      · exact Or.inr ⟨hhr, by simpa using hr⟩

theorem mergeLoop_textures (cosF sinF : Rat → Rat) (cmds : List DrawCommand)
    (geos : List GeometryCommand) (Q : Option Texture → Prop) :
    ∀ (us : List UnifiedCommand) (acc : MergeAcc),
      (∀ u ∈ us, Q u.texture) →
      (acc.haveRange = true → Q acc.currentRange.texture) →
      (∀ r ∈ acc.ranges, Q r.texture) →
      ∀ r ∈ rangesClosed (us.foldl (emitCommand cosF sinF cmds geos) acc), Q r.texture := by
  intro us
  induction us with
  | nil =>
    intro acc _ hcur hrs r hr
    rw [List.foldl_nil] at hr
    rw [rangesClosed] at hr
    rcases List.mem_append.mp hr with hr | hr
    · exact hrs r hr
    · by_cases hhr : acc.haveRange = true
      · rw [if_pos hhr] at hr
        have : r = acc.currentRange := by simpa using hr
        exact this ▸ hcur hhr
      · rw [if_neg hhr] at hr
        simp at hr
  | cons u us ih =>
    intro acc hus hcur hrs
    rw [List.foldl_cons]
    obtain ⟨ht, hrto, _⟩ := emitCommand_textures cosF sinF cmds geos acc u
    refine ih _ (fun v hv => hus v (by simp [hv])) (fun _ => ?_) ?_
    · rcases ht with ht | ⟨hhr, ht⟩
      · rw [ht]
        exact hus u (by simp)
      · rw [ht]
        exact hcur hhr
    · intro r hr
      rcases hrto r hr with hr' | ⟨hhr, hr'⟩
      · exact hrs r hr'
      · rw [hr']
        exact hcur hhr

theorem contiguousFromB_le : ∀ (l : List DrawRange) (k : Nat),
    contiguousFromB k l = true → ∀ r ∈ l, k ≤ r.firstIndex := by
  intro l
  induction l with
  | nil => intro k _ r hr; simp at hr
  | cons r0 l ih =>
    intro k hc r hr
    rw [contiguousFromB, Bool.and_eq_true] at hc
    have h0 : r0.firstIndex = k := by simpa using hc.1
    rcases List.mem_cons.mp hr with hr | hr
    · rw [hr]
      omega
    · have := ih _ hc.2 r hr
      omega

theorem contiguousFromB_pairwise : ∀ (l : List DrawRange) (k : Nat),
    contiguousFromB k l = true →
    l.Pairwise (fun r s => r.firstIndex + r.indexCount ≤ s.firstIndex) := by
  intro l
  induction l with
  | nil => intro k _; simp
  | cons r0 l ih =>
    intro k hc
    rw [contiguousFromB, Bool.and_eq_true] at hc
    refine List.Pairwise.cons ?_ (ih _ hc.2)
    intro s hs
    exact contiguousFromB_le l _ hc.2 s hs

theorem ensureVertexCapacity_unified (f : Nat → Bool) (b : Batch) (n : Nat) :
    (ensureVertexCapacity f b n).2.unifiedCommands = b.unifiedCommands :=
  (ensureVertexCapacity_frame f b n).1.2.2.1

theorem ensureIndexCapacity_unified (f : Nat → Bool) (b : Batch) (n : Nat) :
    (ensureIndexCapacity f b n).2.unifiedCommands = b.unifiedCommands :=
  (ensureIndexCapacity_frame f b n).1.2.2.1

/-- The unified list stored by `endFrame` is the sorted one, regardless of
whether the capacity/upload steps succeed afterwards. -/
theorem endFrame_unified (cosF sinF : Rat → Rat) (vA iA : Nat → Bool) (mV mI : Bool)
    (b : Batch)
    (hne : ¬(b.commands.filter (fun c => !spriteDropped c) = [] ∧
             b.geometryCommands.filter (fun g => !geomDropped g) = [])) :
    (endFrame cosF sinF vA iA mV mI b).unifiedCommands =
      sortedUnified (b.commands.filter (fun c => !spriteDropped c))
        (b.geometryCommands.filter (fun g => !geomDropped g)) := by
  have hcond : ¬(((b.commands.filter (fun c => !spriteDropped c)).isEmpty &&
      (b.geometryCommands.filter (fun g => !geomDropped g)).isEmpty) = true) := by
    intro hcon
    rw [Bool.and_eq_true] at hcon
    exact hne ⟨List.isEmpty_iff.mp hcon.1, List.isEmpty_iff.mp hcon.2⟩
  rw [endFrame]
  dsimp only
  rw [if_neg hcond]
  split
  · rfl
  · split
    · rename_i b4 heq
      exact (congrArg Batch.unifiedCommands (congrArg Prod.snd heq)).symm.trans
        (ensureVertexCapacity_unified vA _ _)
    · rename_i b4 heq
      have h4 : b4.unifiedCommands =
          sortedUnified (b.commands.filter (fun c => !spriteDropped c))
            (b.geometryCommands.filter (fun g => !geomDropped g)) :=
        (congrArg Batch.unifiedCommands (congrArg Prod.snd heq)).symm.trans
          (ensureVertexCapacity_unified vA _ _)
      split
      · rename_i b5 heq5
        exact ((congrArg Batch.unifiedCommands (congrArg Prod.snd heq5)).symm.trans
          (ensureIndexCapacity_unified iA _ _)).trans h4
      · rename_i b5 heq5
        have h5 : b5.unifiedCommands =
            sortedUnified (b.commands.filter (fun c => !spriteDropped c))
              (b.geometryCommands.filter (fun g => !geomDropped g)) :=
          ((congrArg Batch.unifiedCommands (congrArg Prod.snd heq5)).symm.trans
            (ensureIndexCapacity_unified iA _ _)).trans h4
        cases mV with
        | false => rw [if_pos rfl]; exact h5
        | true =>
          rw [if_neg (by simp)]
          cases mI with
          | false => rw [if_pos rfl]; exact h5
          | true => rw [if_neg (by simp)]; exact h5

/-! ## Claim theorems -/

/-- C1: for a frame whose `End` builds the scratch buffers (at least one
command survives the filter and the device allocations succeed), the scratch
buffers contain exactly `4*S + Σ v_i` vertices and `6*S + Σ k_i` indices,
where `S` is the number of surviving sprite commands and `v_i`/`k_i` the
vertex/index counts of the surviving geometry commands. -/
theorem C1_emitted_counts (cosF sinF : Rat → Rat) (vA iA : Nat → Bool) (mV mI : Bool)
    (b : Batch) (hv : ∀ n, vA n = true) (hi : ∀ n, iA n = true)
    (hne : ¬(b.commands.filter (fun c => !spriteDropped c) = [] ∧
             b.geometryCommands.filter (fun g => !geomDropped g) = [])) :
    (endFrame cosF sinF vA iA mV mI b).vertexScratch.length =
      4 * (b.commands.filter (fun c => !spriteDropped c)).length +
      ((b.geometryCommands.filter (fun g => !geomDropped g)).map
        (fun g => g.vertices.length)).sum ∧
    (endFrame cosF sinF vA iA mV mI b).indexScratch.length =
      6 * (b.commands.filter (fun c => !spriteDropped c)).length +
      ((b.geometryCommands.filter (fun g => !geomDropped g)).map
        (fun g => g.indices.length)).sum := by
  obtain ⟨-, -, -, h4, h5, -, -⟩ := endFrame_fields cosF sinF vA iA mV mI b hv hi hne
  obtain ⟨-, hb2, hb3⟩ := buildAll_fields cosF sinF
    (b.commands.filter (fun c => !spriteDropped c))
    (b.geometryCommands.filter (fun g => !geomDropped g))
    (sortedUnified (b.commands.filter (fun c => !spriteDropped c))
      (b.geometryCommands.filter (fun g => !geomDropped g)))
  constructor
  · rw [h4, hb2, totalVerts_sortedUnified]
  · rw [h5, hb3, totalIdxs_sortedUnified]

theorem C1_emitted_counts_witness :
    (¬((push (begin initBatch) ⟨1, some 2⟩ unitRect unitRect whiteColor 0 0).commands.filter
        (fun c => !spriteDropped c) = [] ∧
       (push (begin initBatch) ⟨1, some 2⟩ unitRect unitRect whiteColor 0
          0).geometryCommands.filter (fun g => !geomDropped g) = [])) ∧
    ((endFrame (fun _ => 0) (fun _ => 0) (fun _ => true) (fun _ => true) true true
        (push (begin initBatch) ⟨1, some 2⟩ unitRect unitRect whiteColor 0
          0)).vertexScratch.length =
      4 * ((push (begin initBatch) ⟨1, some 2⟩ unitRect unitRect whiteColor 0
          0).commands.filter (fun c => !spriteDropped c)).length +
      (((push (begin initBatch) ⟨1, some 2⟩ unitRect unitRect whiteColor 0
          0).geometryCommands.filter (fun g => !geomDropped g)).map
        (fun g => g.vertices.length)).sum ∧
     (endFrame (fun _ => 0) (fun _ => 0) (fun _ => true) (fun _ => true) true true
        (push (begin initBatch) ⟨1, some 2⟩ unitRect unitRect whiteColor 0
          0)).indexScratch.length =
      6 * ((push (begin initBatch) ⟨1, some 2⟩ unitRect unitRect whiteColor 0
          0).commands.filter (fun c => !spriteDropped c)).length +
      (((push (begin initBatch) ⟨1, some 2⟩ unitRect unitRect whiteColor 0
          0).geometryCommands.filter (fun g => !geomDropped g)).map
        (fun g => g.indices.length)).sum) :=
  ⟨by decide,
   C1_emitted_counts (fun _ => 0) (fun _ => 0) (fun _ => true) (fun _ => true) true true
     (push (begin initBatch) ⟨1, some 2⟩ unitRect unitRect whiteColor 0 0)
     (fun _ => rfl) (fun _ => rfl) (by decide)⟩

/-- C2: for a frame whose `End` builds the draw ranges (survivors exist,
allocations succeed) and whose emitted index count fits the uint32
bookkeeping, the draw ranges partition the emitted index range exactly:
contiguous starting at 0 (each range starts where the previous ended),
non-overlapping in ascending `firstIndex` order, and their counts sum to the
total emitted index count. -/
theorem C2_ranges_partition (cosF sinF : Rat → Rat) (vA iA : Nat → Bool) (mV mI : Bool)
    (b : Batch) (hv : ∀ n, vA n = true) (hi : ∀ n, iA n = true)
    (hne : ¬(b.commands.filter (fun c => !spriteDropped c) = [] ∧
             b.geometryCommands.filter (fun g => !geomDropped g) = []))
    (hbound : 6 * (b.commands.filter (fun c => !spriteDropped c)).length +
      ((b.geometryCommands.filter (fun g => !geomDropped g)).map
        (fun g => g.indices.length)).sum < u32Size) :
    contiguousFromB 0 (endFrame cosF sinF vA iA mV mI b).drawRanges = true ∧
    (endFrame cosF sinF vA iA mV mI b).drawRanges.Pairwise
      (fun r s => r.firstIndex + r.indexCount ≤ s.firstIndex) ∧
    sumCounts (endFrame cosF sinF vA iA mV mI b).drawRanges =
      (endFrame cosF sinF vA iA mV mI b).indexScratch.length := by
  obtain ⟨-, -, -, -, h5, h6, -⟩ := endFrame_fields cosF sinF vA iA mV mI b hv hi hne
  obtain ⟨hl1, hl2, hl3, hl4⟩ := buildLoop_fields cosF sinF
    (b.commands.filter (fun c => !spriteDropped c))
    (b.geometryCommands.filter (fun g => !geomDropped g))
    (sortedUnified (b.commands.filter (fun c => !spriteDropped c))
      (b.geometryCommands.filter (fun g => !geomDropped g))) initAcc
  have hinv := mergeLoop_invariant cosF sinF
    (b.commands.filter (fun c => !spriteDropped c))
    (b.geometryCommands.filter (fun g => !geomDropped g))
    (fun _ => True) (fun _ _ _ _ => trivial)
    (sortedUnified (b.commands.filter (fun c => !spriteDropped c))
      (b.geometryCommands.filter (fun g => !geomDropped g))) initAcc
    (fun _ _ => trivial)
    (by
      rw [totalIdxs_sortedUnified]
      simpa [initAcc] using hbound)
    (by simp [rangesClosed, initAcc, contiguousFromB])
    (by simp [rangesClosed, initAcc, sumCounts])
    (by simp [initAcc])
    (by simp [rangesClosed, initAcc])
  rw [← buildAll] at hinv hl2 hl4
  rw [← h6] at hinv
  refine ⟨hinv.1, contiguousFromB_pairwise _ _ hinv.1, ?_⟩
  rw [hinv.2.1, h5, hl4, hl2]
  simp [initAcc]

theorem C2_ranges_partition_witness :
    (¬((push (begin initBatch) ⟨1, some 2⟩ unitRect unitRect whiteColor 0 0).commands.filter
        (fun c => !spriteDropped c) = [] ∧
       (push (begin initBatch) ⟨1, some 2⟩ unitRect unitRect whiteColor 0
          0).geometryCommands.filter (fun g => !geomDropped g) = [])) ∧
    contiguousFromB 0 (endFrame (fun _ => 0) (fun _ => 0) (fun _ => true) (fun _ => true)
      true true (push (begin initBatch) ⟨1, some 2⟩ unitRect unitRect whiteColor 0
        0)).drawRanges = true ∧
    sumCounts (endFrame (fun _ => 0) (fun _ => 0) (fun _ => true) (fun _ => true)
      true true (push (begin initBatch) ⟨1, some 2⟩ unitRect unitRect whiteColor 0
        0)).drawRanges =
      (endFrame (fun _ => 0) (fun _ => 0) (fun _ => true) (fun _ => true)
        true true (push (begin initBatch) ⟨1, some 2⟩ unitRect unitRect whiteColor 0
          0)).indexScratch.length :=
  ⟨by decide,
   (C2_ranges_partition (fun _ => 0) (fun _ => 0) (fun _ => true) (fun _ => true) true true
     (push (begin initBatch) ⟨1, some 2⟩ unitRect unitRect whiteColor 0 0)
     (fun _ => rfl) (fun _ => rfl) (by decide) (by decide)).1,
   (C2_ranges_partition (fun _ => 0) (fun _ => 0) (fun _ => true) (fun _ => true) true true
     (push (begin initBatch) ⟨1, some 2⟩ unitRect unitRect whiteColor 0 0)
     (fun _ => rfl) (fun _ => rfl) (by decide) (by decide)).2.2⟩

/-- C3: for a frame with surviving commands, the unified command list stored
at `End` is the original unified list reordered (a permutation) and is
strictly sorted by the composite key: layer ascending, then texture SRV
handle, then sprites before geometry, then (geometry ties) no-clip before
clip followed by the clip rect compared lexicographically on (x, y, w, h),
with the original submission index as final tie-break. -/
theorem C3_sort_order (cosF sinF : Rat → Rat) (vA iA : Nat → Bool) (mV mI : Bool)
    (b : Batch)
    (hne : ¬(b.commands.filter (fun c => !spriteDropped c) = [] ∧
             b.geometryCommands.filter (fun g => !geomDropped g) = [])) :
    List.Perm (endFrame cosF sinF vA iA mV mI b).unifiedCommands
      (mkUnified (b.commands.filter (fun c => !spriteDropped c))
        (b.geometryCommands.filter (fun g => !geomDropped g))) ∧
    (endFrame cosF sinF vA iA mV mI b).unifiedCommands.Pairwise
      (fun x y => ucKey (b.geometryCommands.filter (fun g => !geomDropped g)) x <
        ucKey (b.geometryCommands.filter (fun g => !geomDropped g)) y) ∧
    (endFrame cosF sinF vA iA mV mI b).unifiedCommands.Pairwise
      (fun x y => ucLess (b.geometryCommands.filter (fun g => !geomDropped g)) x y = true) := by
  rw [endFrame_unified cosF sinF vA iA mV mI b hne]
  refine ⟨sortedUnified_perm _ _, ?_, sortedUnified_pairwise_lt _ _⟩
  refine (sortedUnified_pairwise_lt _ _).imp ?_
  intro x y hxy
  rw [ucLess_eq_keyLt] at hxy
  exact of_decide_eq_true hxy

theorem C3_sort_order_witness :
    (¬((push (begin initBatch) ⟨1, some 2⟩ unitRect unitRect whiteColor 0 0).commands.filter
        (fun c => !spriteDropped c) = [] ∧
       (push (begin initBatch) ⟨1, some 2⟩ unitRect unitRect whiteColor 0
          0).geometryCommands.filter (fun g => !geomDropped g) = [])) ∧
    (endFrame (fun _ => 0) (fun _ => 0) (fun _ => true) (fun _ => true) true true
      (push (begin initBatch) ⟨1, some 2⟩ unitRect unitRect whiteColor 0
        0)).unifiedCommands.Pairwise
      (fun x y => ucLess ((push (begin initBatch) ⟨1, some 2⟩ unitRect unitRect whiteColor 0
        0).geometryCommands.filter (fun g => !geomDropped g)) x y = true) :=
  ⟨by decide,
   (C3_sort_order (fun _ => 0) (fun _ => 0) (fun _ => true) (fun _ => true) true true
     (push (begin initBatch) ⟨1, some 2⟩ unitRect unitRect whiteColor 0 0)
     (by decide)).2.2⟩

/-- C10: after the filter step, every entry of the sorted unified list holds
a non-null texture pointer whose SRV is non-null, and so does the texture of
every draw range built from it; hence the comparator's unguarded
`texture->GetSRV()` dereferences never see a null pointer. -/
theorem C10_textures_valid (cosF sinF : Rat → Rat) (b : Batch) :
    (∀ u ∈ sortedUnified (b.commands.filter (fun c => !spriteDropped c))
        (b.geometryCommands.filter (fun g => !geomDropped g)), validTexPtr u.texture) ∧
    (∀ r ∈ rangesClosed (buildAll cosF sinF
        (b.commands.filter (fun c => !spriteDropped c))
        (b.geometryCommands.filter (fun g => !geomDropped g))
        (sortedUnified (b.commands.filter (fun c => !spriteDropped c))
          (b.geometryCommands.filter (fun g => !geomDropped g)))),
      validTexPtr r.texture) := by
  have hus : ∀ u ∈ sortedUnified (b.commands.filter (fun c => !spriteDropped c))
      (b.geometryCommands.filter (fun g => !geomDropped g)), validTexPtr u.texture := by
    intro u hu
    have hmk := (sortedUnified_perm _ _).mem_iff.mp hu
    rw [mkUnified] at hmk
    rcases List.mem_append.mp hmk with h | h
    · obtain ⟨-, -, c, hc, ht, -⟩ := unifySprites_mem _ 0 u h
      rw [ht]
      exact mem_filter_sprite hc
    · obtain ⟨-, -, g, hg, ht, -⟩ := unifyGeoms_mem _ 0 u h
      rw [ht]
      exact (mem_filter_geom hg).2.2
  refine ⟨hus, ?_⟩
  rw [buildAll]
  refine mergeLoop_textures cosF sinF _ _ validTexPtr _ initAcc hus ?_ ?_
  · intro h
    simp [initAcc] at h
  · intro r hr
    simp [initAcc] at hr

theorem C10_textures_valid_witness :
    ((⟨some ⟨1, some 2⟩, 0, true, 0⟩ : UnifiedCommand) ∈
      sortedUnified ((push (begin initBatch) ⟨1, some 2⟩ unitRect unitRect whiteColor 0
          0).commands.filter (fun c => !spriteDropped c))
        ((push (begin initBatch) ⟨1, some 2⟩ unitRect unitRect whiteColor 0
          0).geometryCommands.filter (fun g => !geomDropped g))) ∧
    validTexPtr (⟨some ⟨1, some 2⟩, 0, true, 0⟩ : UnifiedCommand).texture :=
  ⟨by decide,
   (C10_textures_valid (fun _ => 0) (fun _ => 0)
     (push (begin initBatch) ⟨1, some 2⟩ unitRect unitRect whiteColor 0 0)).1
     ⟨some ⟨1, some 2⟩, 0, true, 0⟩ (by decide)⟩

/-- C8: capacity is monotonically non-decreasing at every Ensure call;
a fitting request with a live buffer changes nothing; a growth request
doubles from the baseline until the request fits; and a failed device
allocation leaves capacity and buffer (the whole state) unchanged. -/
theorem C8_capacity_policy (f g : Nat → Bool) (b : Batch) (n m : Nat) :
    (b.vertexCapacity ≤ (ensureVertexCapacity f b n).2.vertexCapacity ∧
     b.indexCapacity ≤ (ensureIndexCapacity g b m).2.indexCapacity) ∧
    ((n ≤ b.vertexCapacity ∧ b.hasVertexBuffer = true) →
      ensureVertexCapacity f b n = (true, b)) ∧
    ((m ≤ b.indexCapacity ∧ b.hasIndexBuffer = true) →
      ensureIndexCapacity g b m = (true, b)) ∧
    (¬(n ≤ b.vertexCapacity ∧ b.hasVertexBuffer = true) →
      (ensureVertexCapacity f b n).1 = true →
      (ensureVertexCapacity f b n).2.vertexCapacity =
        growCapacity (if b.vertexCapacity = 0 then 1024 else b.vertexCapacity) n ∧
      n ≤ (ensureVertexCapacity f b n).2.vertexCapacity) ∧
    (¬(m ≤ b.indexCapacity ∧ b.hasIndexBuffer = true) →
      (ensureIndexCapacity g b m).1 = true →
      (ensureIndexCapacity g b m).2.indexCapacity =
        growCapacity (if b.indexCapacity = 0 then 2048 else b.indexCapacity) m ∧
      m ≤ (ensureIndexCapacity g b m).2.indexCapacity) ∧
    ((ensureVertexCapacity f b n).1 = false → (ensureVertexCapacity f b n).2 = b) ∧
    ((ensureIndexCapacity g b m).1 = false → (ensureIndexCapacity g b m).2 = b) :=
  ⟨⟨ensureVertexCapacity_mono f b n, ensureIndexCapacity_mono g b m⟩,
   ensureVertexCapacity_fits f b n,
   ensureIndexCapacity_fits g b m,
   ensureVertexCapacity_grow f b n,
   ensureIndexCapacity_grow g b m,
   ensureVertexCapacity_fail f b n,
   ensureIndexCapacity_fail g b m⟩

theorem C8_capacity_policy_witness :
    (initBatch.vertexCapacity ≤
      (ensureVertexCapacity (fun _ => true) initBatch 2000).2.vertexCapacity) ∧
    (¬(2000 ≤ initBatch.vertexCapacity ∧ initBatch.hasVertexBuffer = true)) ∧
    ((ensureVertexCapacity (fun _ => true) initBatch 2000).2.vertexCapacity =
      growCapacity (if initBatch.vertexCapacity = 0 then 1024 else initBatch.vertexCapacity)
        2000 ∧
     2000 ≤ (ensureVertexCapacity (fun _ => true) initBatch 2000).2.vertexCapacity) ∧
    ((ensureVertexCapacity (fun _ => false) initBatch 2000).1 = false →
      (ensureVertexCapacity (fun _ => false) initBatch 2000).2 = initBatch) ∧
    ((300 ≤ initBatch.indexCapacity ∧ initBatch.hasIndexBuffer = true) →
      ensureIndexCapacity (fun _ => true) initBatch 300 = (true, initBatch)) :=
  ⟨(C8_capacity_policy (fun _ => true) (fun _ => true) initBatch 2000 300).1.1,
   by decide,
   (C8_capacity_policy (fun _ => true) (fun _ => true) initBatch 2000 300).2.2.2.1
     (by decide) (by decide),
   (C8_capacity_policy (fun _ => false) (fun _ => false) initBatch 2000 300).2.2.2.2.2.1,
   (C8_capacity_policy (fun _ => true) (fun _ => true) initBatch 2000 300).2.2.1⟩

/-- C9 (amended): `Begin` zeroes the frame stats, raises the drawing flag and
clears the sprite and geometry command lists, but leaves the unified command
list and the draw-range list untouched (those are only rebuilt inside `End`). -/
theorem C9_begin_clears (b : Batch) :
    (begin b).commands = [] ∧
    (begin b).geometryCommands = [] ∧
    (begin b).unifiedCommands = b.unifiedCommands ∧
    (begin b).drawRanges = b.drawRanges ∧
    (begin b).isDrawing = true ∧
    (begin b).statsDrawCalls = 0 :=
  ⟨rfl, rfl, rfl, rfl, rfl, rfl⟩

/-- C9 counterexample: `Begin` does not clear the unified command list (nor
the draw-range list); a stale nonempty unified list survives `Begin` intact. -/
theorem C9_begin_cex :
    (begin { initBatch with
              unifiedCommands := [⟨none, 0, true, 0⟩],
              drawRanges := [⟨none, 0, 0, 6, false, ⟨0, 0, 0, 0⟩⟩] }).unifiedCommands ≠ [] ∧
    (begin { initBatch with
              unifiedCommands := [⟨none, 0, true, 0⟩],
              drawRanges := [⟨none, 0, 0, 6, false, ⟨0, 0, 0, 0⟩⟩] }).drawRanges ≠ [] := by
  exact ⟨by decide, by decide⟩

theorem emittedIndexCount_pos (cmds : List DrawCommand) (geos : List GeometryCommand)
    (hg : ∀ g ∈ geos, g.indices ≠ []) :
    ∀ u ∈ sortedUnified cmds geos, 0 < emittedIndexCount geos u := by
  intro u hu
  have hmk := (sortedUnified_perm _ _).mem_iff.mp hu
  rw [mkUnified] at hmk
  rcases List.mem_append.mp hmk with h | h
  · rw [emittedIndexCount, if_pos (unifySprites_mem _ 0 u h).1]
    omega
  · obtain ⟨hsp, hmem, -, -⟩ := unifyGeoms_lookup geos geos 0 rfl u h
    rw [emittedIndexCount, if_neg (by rw [hsp]; simp)]
    have := hg _ hmem
    cases hgi : (geos.getD u.index default).indices with
    | nil => exact absurd hgi this
    | cons _ _ => simp [hgi]

theorem emittedIndexCount_div3 (cmds : List DrawCommand) (geos : List GeometryCommand)
    (hg : ∀ g ∈ geos, 3 ∣ g.indices.length) :
    ∀ u ∈ sortedUnified cmds geos, 3 ∣ emittedIndexCount geos u := by
  intro u hu
  have hmk := (sortedUnified_perm _ _).mem_iff.mp hu
  rw [mkUnified] at hmk
  rcases List.mem_append.mp hmk with h | h
  · rw [emittedIndexCount, if_pos (unifySprites_mem _ 0 u h).1]
    omega
  · obtain ⟨hsp, hmem, -, -⟩ := unifyGeoms_lookup geos geos 0 rfl u h
    rw [emittedIndexCount, if_neg (by rw [hsp]; simp)]
    exact hg _ hmem

/-- C5 (amended): for a frame whose `End` builds the ranges and whose emitted
index count fits uint32, every draw range's index count is positive; it is
moreover a multiple of 3 whenever every surviving geometry command's index
count is a multiple of 3 (sprites always contribute 6).  The unconditional
multiple-of-3 claim fails: `PushGeometryRaw` never validates divisibility. -/
theorem C5_range_counts (cosF sinF : Rat → Rat) (vA iA : Nat → Bool) (mV mI : Bool)
    (b : Batch) (hv : ∀ n, vA n = true) (hi : ∀ n, iA n = true)
    (hne : ¬(b.commands.filter (fun c => !spriteDropped c) = [] ∧
             b.geometryCommands.filter (fun g => !geomDropped g) = []))
    (hbound : 6 * (b.commands.filter (fun c => !spriteDropped c)).length +
      ((b.geometryCommands.filter (fun g => !geomDropped g)).map
        (fun g => g.indices.length)).sum < u32Size) :
    (∀ r ∈ (endFrame cosF sinF vA iA mV mI b).drawRanges, 0 < r.indexCount) ∧
    ((∀ g ∈ b.geometryCommands.filter (fun g => !geomDropped g), 3 ∣ g.indices.length) →
      ∀ r ∈ (endFrame cosF sinF vA iA mV mI b).drawRanges, 3 ∣ r.indexCount) := by
  obtain ⟨-, -, -, -, -, h6, -⟩ := endFrame_fields cosF sinF vA iA mV mI b hv hi hne
  have hbound' : initAcc.iBase + totalIdxs
      (b.geometryCommands.filter (fun g => !geomDropped g))
      (sortedUnified (b.commands.filter (fun c => !spriteDropped c))
        (b.geometryCommands.filter (fun g => !geomDropped g))) < u32Size := by
    rw [totalIdxs_sortedUnified]
    simpa [initAcc] using hbound
  have hgne : ∀ g ∈ b.geometryCommands.filter (fun g => !geomDropped g),
      g.indices ≠ [] := fun g hgm => (mem_filter_geom hgm).2.1
  constructor
  · have hinv := mergeLoop_invariant cosF sinF
      (b.commands.filter (fun c => !spriteDropped c))
      (b.geometryCommands.filter (fun g => !geomDropped g))
      (fun n => 0 < n) (fun _ _ h1 h2 => by omega)
      (sortedUnified (b.commands.filter (fun c => !spriteDropped c))
        (b.geometryCommands.filter (fun g => !geomDropped g))) initAcc
      (emittedIndexCount_pos _ _ hgne) hbound'
      (by simp [rangesClosed, initAcc, contiguousFromB])
      (by simp [rangesClosed, initAcc, sumCounts])
      (by simp [initAcc])
      (by simp [rangesClosed, initAcc])
    rw [← buildAll] at hinv
    rw [h6]
    exact hinv.2.2
  · intro h3
    have hinv := mergeLoop_invariant cosF sinF
      (b.commands.filter (fun c => !spriteDropped c))
      (b.geometryCommands.filter (fun g => !geomDropped g))
      (fun n => 3 ∣ n) (fun _ _ h1 h2 => Nat.dvd_add h1 h2)
      (sortedUnified (b.commands.filter (fun c => !spriteDropped c))
        (b.geometryCommands.filter (fun g => !geomDropped g))) initAcc
      (emittedIndexCount_div3 _ _ h3) hbound'
      (by simp [rangesClosed, initAcc, contiguousFromB])
      (by simp [rangesClosed, initAcc, sumCounts])
      (by simp [initAcc])
      (by simp [rangesClosed, initAcc])
    rw [← buildAll] at hinv
    rw [h6]
    exact hinv.2.2

theorem C5_range_counts_witness :
    (¬((push (begin initBatch) ⟨1, some 2⟩ unitRect unitRect whiteColor 0 0).commands.filter
        (fun c => !spriteDropped c) = [] ∧
       (push (begin initBatch) ⟨1, some 2⟩ unitRect unitRect whiteColor 0
          0).geometryCommands.filter (fun g => !geomDropped g) = [])) ∧
    (∀ r ∈ (endFrame (fun _ => 0) (fun _ => 0) (fun _ => true) (fun _ => true) true true
      (push (begin initBatch) ⟨1, some 2⟩ unitRect unitRect whiteColor 0 0)).drawRanges,
      0 < r.indexCount) :=
  ⟨by decide,
   (C5_range_counts (fun _ => 0) (fun _ => 0) (fun _ => true) (fun _ => true) true true
     (push (begin initBatch) ⟨1, some 2⟩ unitRect unitRect whiteColor 0 0)
     (fun _ => rfl) (fun _ => rfl) (by decide) (by decide)).1⟩

/-- C5 counterexample: a geometry command with 4 indices (which
`PushGeometryRaw` accepts) produces a draw range whose index count is 4 —
positive but not a multiple of 3. -/
theorem C5_range_counts_cex :
    ((endFrame (fun _ => 0) (fun _ => 0) (fun _ => true) (fun _ => true) true true
      (pushGeometryRaw (begin initBatch) (some ⟨7, some 2⟩)
        [⟨0, 0, 0, 0, 0, whiteColor⟩, ⟨1, 0, 0, 0, 0, whiteColor⟩,
         ⟨0, 1, 0, 0, 0, whiteColor⟩]
        [0, 1, 2, 2] 0 ⟨0, 0, 0, 0⟩)).drawRanges.map (fun r => r.indexCount)) = [4] ∧
    ¬(3 ∣ 4) :=
  ⟨by decide, by decide⟩

/-- C4 (spec-modelled): the vertex scratch is the concatenation, in sorted
unified order, of per-command emissions; a geometry command that carries a
translation is emitted with that translation applied to each vertex; and the
command's own stored vertex list (the referenced caller buffer in the pure
model) is not modified by `End` — surviving commands are exactly the
submitted ones. -/
theorem C4_view_translation (cosF sinF : Rat → Rat) (vA iA : Nat → Bool) (mV mI : Bool)
    (b : Batch) (hv : ∀ n, vA n = true) (hi : ∀ n, iA n = true)
    (hne : ¬(b.commands.filter (fun c => !spriteDropped c) = [] ∧
             b.geometryCommands.filter (fun g => !geomDropped g) = [])) :
    (endFrame cosF sinF vA iA mV mI b).vertexScratch =
      concatEmit (emitVertsOf cosF sinF (b.commands.filter (fun c => !spriteDropped c))
        (b.geometryCommands.filter (fun g => !geomDropped g)))
        (sortedUnified (b.commands.filter (fun c => !spriteDropped c))
          (b.geometryCommands.filter (fun g => !geomDropped g))) ∧
    (∀ g : GeometryCommand, g.hasTranslation = true →
      geomEmittedVertices g = g.vertices.map (translateVertex g.translation)) ∧
    (∀ g ∈ (endFrame cosF sinF vA iA mV mI b).geometryCommands,
      g ∈ b.geometryCommands) := by
  obtain ⟨-, h2, -, h4, -, -, -⟩ := endFrame_fields cosF sinF vA iA mV mI b hv hi hne
  refine ⟨?_, ?_, ?_⟩
  · rw [h4]
    exact (buildAll_fields cosF sinF _ _ _).1
  · intro g hg
    rw [geomEmittedVertices, if_pos hg]
  · intro g hg
    rw [h2] at hg
    exact List.mem_of_mem_filter hg

theorem C4_view_translation_witness :
    (({ texture := none, layer := 0, hasClipRect := false, clipRect := ⟨0, 0, 0, 0⟩,
        vertices := [⟨0, 0, 0, 0, 0, whiteColor⟩], indices := [0],
        hasTranslation := true, translation := ⟨3, 4⟩ } :
        GeometryCommand).hasTranslation = true) ∧
    geomEmittedVertices
      { texture := none, layer := 0, hasClipRect := false, clipRect := ⟨0, 0, 0, 0⟩,
        vertices := [⟨0, 0, 0, 0, 0, whiteColor⟩], indices := [0],
        hasTranslation := true, translation := ⟨3, 4⟩ } =
      List.map (translateVertex ⟨3, 4⟩) [⟨0, 0, 0, 0, 0, whiteColor⟩] :=
  ⟨by decide,
   (C4_view_translation (fun _ => 0) (fun _ => 0) (fun _ => true) (fun _ => true) true true
     (push (begin initBatch) ⟨1, some 2⟩ unitRect unitRect whiteColor 0 0)
     (fun _ => rfl) (fun _ => rfl) (by decide)).2.1
     { texture := none, layer := 0, hasClipRect := false, clipRect := ⟨0, 0, 0, 0⟩,
       vertices := [⟨0, 0, 0, 0, 0, whiteColor⟩], indices := [0],
       hasTranslation := true, translation := ⟨3, 4⟩ } rfl⟩

/-- C7: scenario B — `Begin(); PushGeometryRaw(null texture, 4 verts,
6 indices, layer 1, clipRect={0,0,0,0}); End()` substitutes the built-in
white texture (valid with a live SRV) for the null texture and produces
exactly one draw range with `useScissor = false`. -/
theorem C7_scenarioB (w : Texture) (s : Nat) (hw : w.srv = some s) :
    (scenarioB { initBatch with defaultWhite := some w }).geometryCommands.map
      (fun g => g.texture) = [some w] ∧
    (scenarioB { initBatch with defaultWhite := some w }).drawRanges.map
      (fun r => (r.texture, r.useScissor)) = [(some w, false)] := by
  simp +decide [scenarioB, begin, push, pushGeometryRaw, endFrame, spriteDropped,
    geomDropped, sortedUnified, mkUnified, unifySprites, unifyGeoms, stableSort, insertLt,
    ucLess, srvPtr, buildAll, emitCommand, rangesClosed, initAcc, initBatch, spriteIndices,
    geomEmittedVertices, scissorOfGeom, totalVerts, totalIdxs, emittedVertexCount,
    emittedIndexCount, ensureVertexCapacity, ensureIndexCapacity, u32Size, quadVerts,
    quadIdxs, hw]

theorem C7_scenarioB_witness :
    ((⟨100, some 1⟩ : Texture).srv = some 1) ∧
    ((scenarioB { initBatch with defaultWhite := some ⟨100, some 1⟩ }).geometryCommands.map
      (fun g => g.texture) = [some ⟨100, some 1⟩] ∧
     (scenarioB { initBatch with defaultWhite := some ⟨100, some 1⟩ }).drawRanges.map
      (fun r => (r.texture, r.useScissor)) = [(some ⟨100, some 1⟩, false)]) :=
  ⟨rfl, C7_scenarioB ⟨100, some 1⟩ 1 rfl⟩

/-- C6 (amended): scenario A — `Begin(); Push(A, layer 0) ×3;
Push(B, layer 0) ×2; End()` produces exactly 2 draw ranges, 20 vertices,
30 indices and a draw-call counter of 2; the A-range precedes the B-range
exactly when A's SRV handle is smaller than B's (here `srv(A) < srv(B)`),
because the comparator orders equal layers by SRV pointer value — not by
submission order, which only breaks exact ties. -/
theorem C6_scenarioA (A B : Texture) (sa sb : Nat)
    (hA : A.srv = some sa) (hB : B.srv = some sb) (hid : A.id ≠ B.id) (hs : sa < sb) :
    (scenarioA initBatch A B).drawRanges.map
      (fun r => (r.texture, r.firstIndex, r.indexCount)) =
      [(some A, 0, 18), (some B, 18, 12)] ∧
    (scenarioA initBatch A B).vertexScratch.length = 20 ∧
    (scenarioA initBatch A B).indexScratch.length = 30 ∧
    (scenarioA initBatch A B).statsDrawCalls = 2 := by
  have hne : sa ≠ sb := Nat.ne_of_lt hs
  have hns : ¬sb < sa := by omega
  have hid2 : B.id ≠ A.id := fun h => hid h.symm
  simp +decide [scenarioA, begin, push, endFrame, spriteDropped, geomDropped,
    sortedUnified, mkUnified, unifySprites, unifyGeoms, stableSort, insertLt, ucLess,
    srvPtr, buildAll, emitCommand, rangesClosed, initAcc, initBatch, spriteIndices,
    spriteVertices, scissorOfGeom, totalVerts, totalIdxs, emittedVertexCount,
    emittedIndexCount, ensureVertexCapacity, ensureIndexCapacity, u32Size, unitRect,
    whiteColor, hA, hB, hs, hne, hns, hid, hid2]

theorem C6_scenarioA_witness :
    ((⟨1, some 3⟩ : Texture).srv = some 3 ∧ (⟨2, some 5⟩ : Texture).srv = some 5 ∧
     (1 : Nat) ≠ 2 ∧ (3 : Nat) < 5) ∧
    ((scenarioA initBatch ⟨1, some 3⟩ ⟨2, some 5⟩).drawRanges.map
      (fun r => (r.texture, r.firstIndex, r.indexCount)) =
      [(some ⟨1, some 3⟩, 0, 18), (some ⟨2, some 5⟩, 18, 12)] ∧
     (scenarioA initBatch ⟨1, some 3⟩ ⟨2, some 5⟩).vertexScratch.length = 20 ∧
     (scenarioA initBatch ⟨1, some 3⟩ ⟨2, some 5⟩).indexScratch.length = 30 ∧
     (scenarioA initBatch ⟨1, some 3⟩ ⟨2, some 5⟩).statsDrawCalls = 2) :=
  ⟨⟨rfl, rfl, by decide, by decide⟩,
   C6_scenarioA ⟨1, some 3⟩ ⟨2, some 5⟩ 3 5 rfl rfl (by decide) (by decide)⟩

/-- C6 counterexample: with the same submission order (A ×3, then B ×2) but
`srv(B) < srv(A)`, the B-range precedes the A-range — the claim's
"A precedes B because A was submitted first" fails on the code, which sorts
equal layers by SRV pointer value. -/
theorem C6_scenarioA_cex :
    ((scenarioA initBatch ⟨1, some 5⟩ ⟨2, some 3⟩).drawRanges.map (fun r => r.texture)) =
      [some ⟨2, some 3⟩, some ⟨1, some 5⟩] ∧
    (some (⟨2, some 3⟩ : Texture) ≠ some (⟨1, some 5⟩ : Texture)) :=
  ⟨by decide, by decide⟩

end KibakoSB
